import Mathlib

/-!
Verification of the streaming technical-indicator engine of the QuantTrader
repository: a shallow embedding of `quanttrader/indicators/incremental.py`
(bespoke EMA/RSI/MACD/Bollinger indicators and the `IndicatorEngine`) and of
`quanttrader/indicators/resampler.py` (`OhlcvResampler`, `_tf_to_seconds`).

Modelling conventions:
* IEEE-754 doubles are modelled as exact rationals (`ℚ`); timestamps as `ℤ`.
* Python `dict`s (insertion ordered, assignment replaces in place) are modelled
  as association lists with `dictSet` / `dictUpdate`.
* Python exceptions are modelled with `Except String` for constructors; for
  `IndicatorEngine.register_requirements`, which mutates the engine before it
  can raise, the model returns the (possibly partially mutated) engine
  together with an optional error.
* The wall clock read `int(time.time() * 1000)` inside `IndicatorEngine.update`
  is modelled as an explicit `now` argument.
* `float("-inf")` / `float("inf")` sentinels of the resampler are modelled as
  `none`; `math.sqrt` is modelled by a fixed computable stand-in (`sqrtQ`),
  whose numeric values no theorem below depends on.
-/

set_option maxHeartbeats 1000000

namespace QuantTrader

/-- Python `int(q)` applied to a numeric value: truncation toward zero
(`Int.tdiv` by the positive denominator). -/
def pyInt (q : ℚ) : ℤ := Int.tdiv q.num (q.den : ℤ)

/-- Python `//` on integers: floor division. -/
def pyFloorDiv (a b : ℤ) : ℤ := Int.fdiv a b

/-- Python `d[k] = v` on an insertion-ordered dict: replace in place when the
key exists, append otherwise. -/
def dictSet {β : Type} : List (String × β) → String → β → List (String × β)
  | [], k, v => [(k, v)]
  | (k', v') :: rest, k, v =>
    if k' = k then (k', v) :: rest else (k', v') :: dictSet rest k v

/-- Python `d.setdefault(k, dflt)` followed by a mutation of the entry:
apply `f` to the stored value at `k`, inserting `f dflt` at the end when `k`
is absent. -/
def dictUpdate {β : Type} : List (String × β) → String → β → (β → β) → List (String × β)
  | [], k, dflt, f => [(k, f dflt)]
  | (k', v') :: rest, k, dflt, f =>
    if k' = k then (k', f v') :: rest else (k', v') :: dictUpdate rest k dflt f

/-- Python `params.get(key, dflt)` for the numeric indicator parameters. -/
def pyGet (params : List (String × ℚ)) (key : String) (dflt : ℚ) : ℚ :=
  (params.lookup key).getD dflt

/-- Python `str.lower()` (ASCII range, which covers every tag and timeframe
the engine handles). Implemented over the character list because the
built-in `String.toLower` is opaque to the kernel. -/
def pyLower (s : String) : String := String.mk (s.data.map Char.toLower)

/-- Python `str.strip()`: remove whitespace from both ends. -/
def pyStrip (s : String) : String :=
  String.mk
    (((s.data.dropWhile Char.isWhitespace).reverse.dropWhile Char.isWhitespace).reverse)

/-- Python `s.endswith(c)` for a one-character suffix. -/
def strEndsWithChar (s : String) (c : Char) : Bool := s.data.getLast? = some c

/-- Python `s[:-1]`. -/
def strDropLast (s : String) : String := String.mk s.data.dropLast

/-- Mirrors the `IndicatorBar` dataclass (incremental.py). The Python field
`open` is a Lean keyword and is rendered `open_`. -/
structure IndicatorBar where
  timestamp : ℤ
  open_ : ℚ
  high : ℚ
  low : ℚ
  close : ℚ
  volume : ℚ
  timeframe : String
  deriving DecidableEq

/-- Mirrors the `IndicatorRequirement` dataclass (incremental.py). -/
structure IndicatorRequirement where
  id : String
  type : String
  timeframe : String
  params : List (String × ℚ)
  deriving DecidableEq

/-- Mirrors `_EMAState` (incremental.py): the plain EMA chain used inside MACD. -/
structure EmaSt where
  period : ℤ
  alpha : ℚ
  value : Option ℚ
  seedSum : ℚ
  count : ℕ
  deriving DecidableEq

/-- `_EMAState.__init__`. -/
def mkEmaSt (period : ℤ) : Except String EmaSt :=
  if period ≤ 0 then .error "EMA period must be positive"
  else .ok { period := period, alpha := 2 / ((period : ℚ) + 1), value := none,
             seedSum := 0, count := 0 }

/-- `_EMAState.update`. -/
def EmaSt.update (st : EmaSt) (price : ℚ) : EmaSt :=
  let count := st.count + 1
  match st.value with
  | none =>
    let seedSum := st.seedSum + price
    if (count : ℤ) = st.period then
      { st with count := count, seedSum := seedSum,
                value := some (seedSum / (st.period : ℚ)) }
    else { st with count := count, seedSum := seedSum }
  | some v =>
    { st with count := count, value := some ((price - v) * st.alpha + v) }

/-- State owned by `EMAIndicator` beyond the base class. -/
structure EmaIndSt where
  period : ℤ
  alpha : ℚ
  ema : Option ℚ
  seedSum : ℚ
  deriving DecidableEq

/-- State owned by `RSIIndicator` beyond the base class. -/
structure RsiIndSt where
  period : ℤ
  prevClose : Option ℚ
  avgGain : Option ℚ
  avgLoss : Option ℚ
  gainSum : ℚ
  lossSum : ℚ
  changeCount : ℕ
  deriving DecidableEq

/-- State owned by `MACDIndicator` beyond the base class. -/
structure MacdIndSt where
  fastPeriod : ℤ
  slowPeriod : ℤ
  signalPeriod : ℤ
  fast : EmaSt
  slow : EmaSt
  signal : EmaSt
  diff : Option ℚ
  macd : Option ℚ
  deriving DecidableEq

/-- State owned by `BollingerIndicator` beyond the base class. -/
structure BollIndSt where
  period : ℤ
  stdDev : ℚ
  window : List ℚ
  sum : ℚ
  sumSq : ℚ
  deriving DecidableEq

/-- The four concrete indicator families of incremental.py as a closed sum. -/
inductive IndicatorState where
  | ema (s : EmaIndSt)
  | rsi (s : RsiIndSt)
  | macd (s : MacdIndSt)
  | boll (s : BollIndSt)
  deriving DecidableEq

/-- An indicator instance: the `BaseIncrementalIndicator` fields plus the
family-specific state. -/
structure Indicator where
  requirement : IndicatorRequirement
  bar_count : ℕ
  last_bar_ts : Option ℤ
  state : IndicatorState
  deriving DecidableEq

/-- `EMAIndicator.__init__`. -/
def mkEMAIndicator (req : IndicatorRequirement) : Except String Indicator :=
  let period := pyInt (pyGet req.params "period" 0)
  if period ≤ 0 then .error "EMA period must be positive"
  else .ok { requirement := req, bar_count := 0, last_bar_ts := none,
             state := .ema { period := period, alpha := 2 / ((period : ℚ) + 1),
                             ema := none, seedSum := 0 } }

/-- `RSIIndicator.__init__`. -/
def mkRSIIndicator (req : IndicatorRequirement) : Except String Indicator :=
  let period := pyInt (pyGet req.params "period" 0)
  if period ≤ 0 then .error "RSI period must be positive"
  else .ok { requirement := req, bar_count := 0, last_bar_ts := none,
             state := .rsi { period := period, prevClose := none, avgGain := none,
                             avgLoss := none, gainSum := 0, lossSum := 0,
                             changeCount := 0 } }

/-- `MACDIndicator.__init__`. -/
def mkMACDIndicator (req : IndicatorRequirement) : Except String Indicator :=
  let fast_period := pyInt (pyGet req.params "fast" 12)
  let slow_period := pyInt (pyGet req.params "slow" 26)
  let signal_period := pyInt (pyGet req.params "signal" 9)
  if fast_period ≤ 0 ∨ slow_period ≤ 0 ∨ signal_period ≤ 0 then
    .error "MACD periods must be positive"
  else if fast_period ≥ slow_period then
    .error "MACD fast period must be smaller than slow period"
  else do
    let f ← mkEmaSt fast_period
    let s ← mkEmaSt slow_period
    let g ← mkEmaSt signal_period
    .ok { requirement := req, bar_count := 0, last_bar_ts := none,
          state := .macd { fastPeriod := fast_period, slowPeriod := slow_period,
                           signalPeriod := signal_period, fast := f, slow := s,
                           signal := g, diff := none, macd := none } }

/-- `BollingerIndicator.__init__`. Note: `std_dev` is read with default `2.0`
and stored without any validation. -/
def mkBollingerIndicator (req : IndicatorRequirement) : Except String Indicator :=
  let period := pyInt (pyGet req.params "period" 0)
  if period ≤ 0 then .error "Bollinger period must be positive"
  else .ok { requirement := req, bar_count := 0, last_bar_ts := none,
             state := .boll { period := period,
                              stdDev := pyGet req.params "std_dev" 2,
                              window := [], sum := 0, sumSq := 0 } }

/-- `warmup_period` of each family. -/
def Indicator.warmup_period (ind : Indicator) : ℤ :=
  match ind.state with
  | .ema s => s.period
  | .rsi s => s.period + 1
  | .macd s => s.slowPeriod + s.signalPeriod
  | .boll s => s.period

/-- `is_warmed_up`: the base-class definition `bar_count >= warmup_period` for
EMA and Bollinger, and the overrides of `RSIIndicator` and `MACDIndicator`. -/
def Indicator.is_warmed_up (ind : Indicator) : Bool :=
  match ind.state with
  | .ema _ => decide (ind.warmup_period ≤ (ind.bar_count : ℤ))
  | .rsi s => s.avgGain.isSome && s.avgLoss.isSome
  | .macd s => s.signal.value.isSome
  | .boll _ => decide (ind.warmup_period ≤ (ind.bar_count : ℤ))

/-- `EMAIndicator._update` (receives the already-incremented bar count, since
`BaseIncrementalIndicator.update` increments before dispatching). -/
def emaSpecUpdate (bar_count : ℕ) (s : EmaIndSt) (close : ℚ) : EmaIndSt :=
  match s.ema with
  | none =>
    let seedSum := s.seedSum + close
    if (bar_count : ℤ) = s.period then
      { s with seedSum := seedSum, ema := some (seedSum / (s.period : ℚ)) }
    else { s with seedSum := seedSum }
  | some e => { s with ema := some ((close - e) * s.alpha + e) }

/-- `RSIIndicator._update`. -/
def rsiSpecUpdate (s : RsiIndSt) (close : ℚ) : RsiIndSt :=
  match s.prevClose with
  | none => { s with prevClose := some close }
  | some prev =>
    let change := close - prev
    let gain := max change 0
    let loss := max (-change) 0
    let s1 := { s with prevClose := some close, changeCount := s.changeCount + 1 }
    match s1.avgGain, s1.avgLoss with
    | some ag, some al =>
      { s1 with
        avgGain := some ((ag * ((s1.period : ℚ) - 1) + gain) / (s1.period : ℚ)),
        avgLoss := some ((al * ((s1.period : ℚ) - 1) + loss) / (s1.period : ℚ)) }
    | _, _ =>
      let gainSum := s1.gainSum + gain
      let lossSum := s1.lossSum + loss
      if s1.period ≤ (s1.changeCount : ℤ) then
        { s1 with gainSum := gainSum, lossSum := lossSum,
                  avgGain := some (gainSum / (s1.period : ℚ)),
                  avgLoss := some (lossSum / (s1.period : ℚ)) }
      else { s1 with gainSum := gainSum, lossSum := lossSum }

/-- `MACDIndicator._update`.  `(self._fast.value or 0.0)` coincides with
`Option.getD _ 0` here because both EMAs are ready on that branch. -/
def macdSpecUpdate (s : MacdIndSt) (close : ℚ) : MacdIndSt :=
  let fast := s.fast.update close
  let slow := s.slow.update close
  if fast.value.isSome && slow.value.isSome then
    let diff := fast.value.getD 0 - slow.value.getD 0
    let signal := s.signal.update diff
    let macd := if signal.value.isSome then some (diff - signal.value.getD 0) else s.macd
    { s with fast := fast, slow := slow, signal := signal,
             diff := some diff, macd := macd }
  else { s with fast := fast, slow := slow }

/-- `BollingerIndicator._update`: deque of max length `period` kept together
with a running sum and sum of squares. The empty-window pop branch is
unreachable because construction enforces `period > 0`. -/
def bollSpecUpdate (s : BollIndSt) (close : ℚ) : BollIndSt :=
  let s1 :=
    if (s.window.length : ℤ) = s.period then
      match s.window with
      | [] => s
      | removed :: rest =>
        { s with window := rest, sum := s.sum - removed,
                 sumSq := s.sumSq - removed * removed }
    else s
  { s1 with window := s1.window ++ [close], sum := s1.sum + close,
            sumSq := s1.sumSq + close * close }

/-- `BaseIncrementalIndicator.update`: bump `bar_count`, record the bar
timestamp, then dispatch to the family-specific `_update`. -/
def Indicator.update (ind : Indicator) (bar : IndicatorBar) : Indicator :=
  let bar_count := ind.bar_count + 1
  let state :=
    match ind.state with
    | .ema s => .ema (emaSpecUpdate bar_count s bar.close)
    | .rsi s => .rsi (rsiSpecUpdate s bar.close)
    | .macd s => .macd (macdSpecUpdate s bar.close)
    | .boll s => .boll (bollSpecUpdate s bar.close)
  { ind with bar_count := bar_count, last_bar_ts := some bar.timestamp,
             state := state }

/-- Composite output of `MACDIndicator.value`. -/
structure MacdValue where
  ema_fast : Option ℚ
  ema_slow : Option ℚ
  diff : Option ℚ
  dea : Option ℚ
  macd : Option ℚ
  fast_line : Option ℚ
  signal_line : Option ℚ
  histogram : Option ℚ
  deriving DecidableEq

/-- Composite output of `BollingerIndicator.value`. -/
structure BollValue where
  upper : Option ℚ
  middle : Option ℚ
  lower : Option ℚ
  bandwidth : Option ℚ
  deriving DecidableEq

/-- The value an indicator reports into the snapshot. -/
inductive Value where
  | scalar (v : Option ℚ)
  | macdV (v : MacdValue)
  | bollV (v : BollValue)
  deriving DecidableEq

/-- Stand-in for `math.sqrt`. No theorem in this development depends on its
numeric values: the Bollinger claims concern which fields are present,
parameter validation, and determinism, all independent of the square root
chosen, so any fixed computable function is adequate here. -/
def sqrtQ (q : ℚ) : ℚ := (Nat.sqrt q.num.toNat : ℚ) / (Nat.sqrt q.den : ℚ)

/-- `value()` of each family. -/
def Indicator.value (ind : Indicator) : Value :=
  match ind.state with
  | .ema s => .scalar (if ind.is_warmed_up then s.ema else none)
  | .rsi s =>
    .scalar (match s.avgGain, s.avgLoss with
      | some ag, some al =>
        if al = 0 then some 100 else some (100 - 100 / (1 + ag / al))
      | _, _ => none)
  | .macd s =>
    let fastReady := s.fast.value.isSome
    let slowReady := s.slow.value.isSome
    let signalReady := s.signal.value.isSome
    .macdV { ema_fast := if fastReady then s.fast.value else none
             ema_slow := if slowReady then s.slow.value else none
             diff := if fastReady && slowReady then s.diff else none
             dea := if signalReady then s.signal.value else none
             macd := if signalReady then s.macd else none
             fast_line := if fastReady && slowReady then s.diff else none
             signal_line := if signalReady then s.signal.value else none
             histogram := if signalReady then s.macd else none }
  | .boll s =>
    if (s.window.length : ℤ) < s.period then
      .bollV { upper := none, middle := none, lower := none, bandwidth := none }
    else
      let mean := s.sum / (s.period : ℚ)
      let variance := max (s.sumSq / (s.period : ℚ) - mean * mean) 0
      let std := sqrtQ variance
      let upper := mean + s.stdDev * std
      let lower := mean - s.stdDev * std
      .bollV { upper := some upper, middle := some mean, lower := some lower,
               bandwidth := some (upper - lower) }

/-- `IndicatorEngine._build_indicator`. -/
def buildIndicator (req : IndicatorRequirement) : Except String Indicator :=
  if req.type = "ema" then mkEMAIndicator req
  else if req.type = "rsi" then mkRSIIndicator req
  else if req.type = "macd" then mkMACDIndicator req
  else if req.type = "boll" ∨ req.type = "bollinger" ∨ req.type = "bb" then
    mkBollingerIndicator req
  else .error ("unsupported indicator type: " ++ req.type)

/-- Engine state (incremental.py `IndicatorEngine.__init__`). -/
structure IndicatorEngine where
  requirements : List (String × IndicatorRequirement)
  indicators : List (String × Indicator)
  last_update_ts : Option ℤ
  last_bar_ts_by_timeframe : List (String × ℤ)
  deriving DecidableEq

/-- A freshly constructed engine. -/
def emptyEngine : IndicatorEngine :=
  { requirements := [], indicators := [], last_update_ts := none,
    last_bar_ts_by_timeframe := [] }

/-- One entry of the `requirements` dict passed to `register_requirements`:
the `"type"` and `"timeframe"` keys (already passed through `str`, with `""`
standing for an absent key, exactly the `spec.get(..., "")` default) and the
remaining numeric entries as params. -/
structure PySpec where
  type : String
  timeframe : String
  params : List (String × ℚ)
  deriving DecidableEq

/-- `IndicatorEngine.register_requirements`. The Python loop mutates the
engine entry by entry and can raise mid-way, so the model returns the engine
state reached together with the error, if one was raised: on `some err` the
mutations already performed are kept, exactly as in the source. -/
def registerRequirements (eng : IndicatorEngine) :
    List (String × PySpec) → IndicatorEngine × Option String
  | [] => (eng, none)
  | (req_id, spec) :: rest =>
    let indicator_type := pyLower spec.type
    let timeframe := pyLower spec.timeframe
    if indicator_type = "" ∨ timeframe = "" then
      (eng, some "indicator type and timeframe are required")
    else
      let req : IndicatorRequirement :=
        { id := req_id, type := indicator_type, timeframe := timeframe,
          params := spec.params }
      let eng1 := { eng with requirements := dictSet eng.requirements req_id req }
      match buildIndicator req with
      | .error e => (eng1, some e)
      | .ok ind =>
        registerRequirements
          { eng1 with indicators := dictSet eng1.indicators req_id ind } rest

/-- `IndicatorEngine.update`. The wall-clock read `int(time.time() * 1000)` is
the explicit argument `now`. -/
def IndicatorEngine.update (eng : IndicatorEngine) (bar : IndicatorBar)
    (now : ℤ) : IndicatorEngine :=
  let updated := eng.indicators.any (fun p => p.2.requirement.timeframe == bar.timeframe)
  let indicators := eng.indicators.map (fun p =>
    if p.2.requirement.timeframe == bar.timeframe then (p.1, p.2.update bar) else p)
  if updated then
    { eng with indicators := indicators, last_update_ts := some now,
               last_bar_ts_by_timeframe :=
                 dictSet eng.last_bar_ts_by_timeframe bar.timeframe bar.timestamp }
  else { eng with indicators := indicators }

/-- Run a bar stream through the engine; each element carries the wall-clock
time observed during that `update` call. -/
def runEngine (eng : IndicatorEngine) : List (IndicatorBar × ℤ) → IndicatorEngine
  | [] => eng
  | (b, t) :: rest => runEngine (eng.update b t) rest

/-- Run a bar stream through a single indicator. -/
def Indicator.run (ind : Indicator) : List IndicatorBar → Indicator
  | [] => ind
  | b :: bs => (ind.update b).run bs

/-- The per-timeframe bucket of `snapshot()["by_timeframe"]`. -/
structure TfBucket where
  groups : List (String × List (String × Value))
  is_warmed_up : Bool
  bar_close_ts : Option ℤ
  deriving DecidableEq

/-- The nested view produced by `IndicatorEngine.snapshot`. -/
structure Snapshot where
  by_type : List (String × List (String × Value))
  is_warmed_up : Bool
  timestamp : Option ℤ
  bar_close_ts : Option ℤ
  by_timeframe : List (String × TfBucket)
  deriving DecidableEq

/-- `IndicatorEngine.snapshot`. The source builds `by_type`, the raw
`by_timeframe` nesting and the overall warmup flag in one pass over
`self._indicators` and then decorates each timeframe bucket; the folds below
compute the same insertion-ordered structures. -/
def IndicatorEngine.snapshot (eng : IndicatorEngine) : Snapshot :=
  let by_type := eng.indicators.foldl
    (fun acc p => dictUpdate acc p.2.requirement.type []
      (fun b => dictSet b p.1 p.2.value)) []
  let byTfRaw := eng.indicators.foldl
    (fun acc p => dictUpdate acc p.2.requirement.timeframe []
      (fun b => dictUpdate b p.2.requirement.type []
        (fun g => dictSet g p.1 p.2.value))) []
  let by_timeframe := byTfRaw.map (fun q =>
    (q.1, ({ groups := q.2,
             is_warmed_up := (eng.indicators.filter
               (fun p => p.2.requirement.timeframe == q.1)).all
                 (fun p => p.2.is_warmed_up),
             bar_close_ts := eng.last_bar_ts_by_timeframe.lookup q.1 } : TfBucket)))
  { by_type := by_type,
    is_warmed_up := eng.indicators.all (fun p => p.2.is_warmed_up),
    timestamp := eng.last_update_ts,
    bar_close_ts :=
      match eng.last_bar_ts_by_timeframe with
      | [] => none
      | (_, v) :: rest => some (rest.foldl (fun m p => max m p.2) v),
    by_timeframe := by_timeframe }

/-- Python `int(s)` on a string: an optional minus sign followed by at least
one decimal digit (the only shapes `_tf_to_seconds` ever feeds it). -/
def digitsAccum (acc : ℕ) : List Char → Option ℕ
  | [] => some acc
  | c :: cs =>
    if c.isDigit then digitsAccum (acc * 10 + (c.toNat - 48)) cs else none

/-- Python `int(s)` for `_tf_to_seconds`; failure models the `ValueError`. -/
def pyParseInt (s : String) : Except String ℤ :=
  match s.data with
  | [] => .error ("invalid literal for int: " ++ s)
  | '-' :: rest =>
    match rest, digitsAccum 0 rest with
    | _ :: _, some n => .ok (-(n : ℤ))
    | _, _ => .error ("invalid literal for int: " ++ s)
  | cs =>
    match digitsAccum 0 cs with
    | some n => .ok (n : ℤ)
    | none => .error ("invalid literal for int: " ++ s)

/-- `_tf_to_seconds` (resampler.py): lowercase and strip, then dispatch on the
final letter; units `m`, `h`, `d`, `w` only. Note that the initial
`tf.lower()` turns an `"M"` (month) suffix into `"m"` (minute) and that no
month branch exists. -/
def tfToSeconds (tf0 : String) : Except String ℤ :=
  let tf := pyStrip (pyLower tf0)
  if tf = "" then .error "Empty timeframe"
  else if strEndsWithChar tf 'm' then do
    let n ← pyParseInt (strDropLast tf)
    .ok (n * 60)
  else if strEndsWithChar tf 'h' then do
    let n ← pyParseInt (strDropLast tf)
    .ok (n * 3600)
  else if strEndsWithChar tf 'd' then do
    let n ← pyParseInt (strDropLast tf)
    .ok (n * 86400)
  else if strEndsWithChar tf 'w' then do
    let n ← pyParseInt (strDropLast tf)
    .ok (n * 7 * 86400)
  else .error ("Unknown timeframe: " ++ tf)

/-- Mirrors the `OhlcvResampler` dataclass. The `float("-inf")` and
`float("inf")` sentinels of `_pending_high` / `_pending_low` are modelled as
`none`: for every finite price x, `max(-inf, x) = x` and `min(inf, x) = x`,
which is exactly the `none` branch of the folds in `add` below. -/
structure OhlcvResampler where
  source_tf : String
  target_tf : String
  ratio : ℤ
  source_seconds_ms : ℤ
  target_seconds_ms : ℤ
  current_period_start : Option ℤ
  pending_open : Option ℚ
  pending_high : Option ℚ
  pending_low : Option ℚ
  pending_close : ℚ
  pending_volume : ℚ
  pending_ts : ℤ
  count : ℕ
  deriving DecidableEq

/-- Dataclass construction plus `__post_init__`. -/
def mkOhlcvResampler (source_tf target_tf : String) (ratio : ℤ) :
    Except String OhlcvResampler := do
  let s ← tfToSeconds source_tf
  let t ← tfToSeconds target_tf
  .ok { source_tf := source_tf, target_tf := target_tf, ratio := ratio,
        source_seconds_ms := s * 1000, target_seconds_ms := t * 1000,
        current_period_start := none, pending_open := none, pending_high := none,
        pending_low := none, pending_close := 0, pending_volume := 0,
        pending_ts := 0, count := 0 }

/-- `OhlcvResampler._get_period_start`: Python `//` is floor division. -/
def OhlcvResampler.getPeriodStart (r : OhlcvResampler) (ts : ℤ) : ℤ :=
  pyFloorDiv ts r.target_seconds_ms * r.target_seconds_ms

/-- `OhlcvResampler._is_period_last_bar`. -/
def OhlcvResampler.isPeriodLastBar (r : OhlcvResampler) (ts : ℤ) : Bool :=
  decide (r.getPeriodStart ts + r.target_seconds_ms ≤ ts + r.source_seconds_ms)

/-- `OhlcvResampler._create_output_bar`. Whenever `pending_open` is set the
high/low sentinels were replaced in the same `add` call that set it, so on
every state the resampler actually reaches the wildcard branch coincides with
the source's `pending_open is None` check. -/
def OhlcvResampler.createOutputBar (r : OhlcvResampler) : Option IndicatorBar :=
  match r.pending_open, r.pending_high, r.pending_low with
  | some o, some h, some l =>
    some { timestamp := r.pending_ts, open_ := o, high := h, low := l,
           close := r.pending_close, volume := r.pending_volume,
           timeframe := r.target_tf }
  | _, _, _ => none

/-- `OhlcvResampler._reset` (does not touch `pending_ts`, as in the source). -/
def OhlcvResampler.resetState (r : OhlcvResampler) : OhlcvResampler :=
  { r with current_period_start := none, pending_open := none,
           pending_high := none, pending_low := none, pending_close := 0,
           pending_volume := 0, count := 0 }

/-- `OhlcvResampler.add`. Returns the new state and the emitted bar, if any.
The source assigns `result` twice when a prior-period flush and a
current-period close coincide; the second assignment (the close) wins, and
that overwrite is reproduced literally here. -/
def OhlcvResampler.add (r : OhlcvResampler) (bar : IndicatorBar) :
    OhlcvResampler × Option IndicatorBar :=
  let barPeriodStart := r.getPeriodStart bar.timestamp
  let flushStep : OhlcvResampler × Option IndicatorBar :=
    match r.current_period_start with
    | some cur =>
      if barPeriodStart ≠ cur ∧ r.pending_open.isSome then
        (r.resetState, r.createOutputBar)
      else (r, none)
    | none => (r, none)
  let r1 := { flushStep.1 with current_period_start := some barPeriodStart }
  let r2 :=
    match r1.pending_open with
    | none => { r1 with pending_open := some bar.open_, pending_ts := barPeriodStart }
    | some _ => r1
  let r3 :=
    { r2 with
        pending_high := some (match r2.pending_high with
          | none => bar.high
          | some h => max h bar.high),
        pending_low := some (match r2.pending_low with
          | none => bar.low
          | some l => min l bar.low),
        pending_close := bar.close,
        pending_volume := r2.pending_volume + bar.volume,
        count := r2.count + 1 }
  if r3.isPeriodLastBar bar.timestamp then (r3.resetState, r3.createOutputBar)
  else (r3, flushStep.2)

/-- Feed a list of bars through `add`, collecting every emitted bar in order. -/
def OhlcvResampler.addMany (r : OhlcvResampler) :
    List IndicatorBar → OhlcvResampler × List IndicatorBar
  | [] => (r, [])
  | b :: bs =>
    let step := r.add b
    let rest := step.1.addMany bs
    (rest.1, (match step.2 with | some o => [o] | none => []) ++ rest.2)

/-- The wall-clock-independent part of the engine state: everything except
`last_update_ts`. Used to state what identical bar streams do and do not
determine. -/
structure EngineCore where
  requirements : List (String × IndicatorRequirement)
  indicators : List (String × Indicator)
  last_bar_ts_by_timeframe : List (String × ℤ)
  deriving DecidableEq

/-- Projection of an engine onto its wall-clock-independent part. -/
def IndicatorEngine.core (eng : IndicatorEngine) : EngineCore :=
  { requirements := eng.requirements, indicators := eng.indicators,
    last_bar_ts_by_timeframe := eng.last_bar_ts_by_timeframe }

/-- A snapshot with its top-level `"timestamp"` field blanked; two snapshots
agree on every other key and value iff their erasures are equal. -/
def Snapshot.eraseTimestamp (s : Snapshot) : Snapshot :=
  { s with timestamp := none }

/-- Concrete resampler state used to instantiate the emission-discipline
theorem: a 1m→2m resampler holding the partial aggregate of the period that
starts at 0 after having seen one bar. -/
def c4exState : OhlcvResampler :=
  { source_tf := "1m", target_tf := "2m", ratio := 2,
    source_seconds_ms := 60000, target_seconds_ms := 120000,
    current_period_start := some 0, pending_open := some 1,
    pending_high := some 2, pending_low := some 0, pending_close := 1,
    pending_volume := 1, pending_ts := 0, count := 1 }

/-- A 1m source bar at 120000 (a new 2m period, not that period's last bar). -/
def c4exBarA : IndicatorBar :=
  { timestamp := 120000, open_ := 5, high := 6, low := 4, close := 5,
    volume := 1, timeframe := "1m" }

/-- A 1m source bar at 180000 (a new 2m period, and its last bar). -/
def c4exBarB : IndicatorBar :=
  { timestamp := 180000, open_ := 5, high := 6, low := 4, close := 5,
    volume := 1, timeframe := "1m" }

/-- Parameters of the Bollinger registration showing that `std_dev` is not
validated: period 2 with a negative band width. -/
def c9exReq : IndicatorRequirement :=
  { id := "b", type := "boll", timeframe := "1m",
    params := [("period", 2), ("std_dev", -1)] }

/-- A valid EMA spec used by the registration-atomicity counterexample. -/
def c2exSpecA : PySpec :=
  { type := "ema", timeframe := "1m", params := [("period", 3)] }

/-- A spec with an unsupported type tag, used to make registration fail. -/
def c2exSpecB : PySpec :=
  { type := "bogus", timeframe := "1m", params := [] }

/-- A valid EMA spec for the frame-property witness. -/
def c10exSpec : PySpec :=
  { type := "ema", timeframe := "1m", params := [("period", 2)] }

/-- A bar on a timeframe ("5m") with no registered indicator. -/
def c10exBar : IndicatorBar :=
  { timestamp := 1000, open_ := 1, high := 2, low := 0, close := 1, volume := 1,
    timeframe := "5m" }

/- ------------------------------------------------------------------ -/
/- Shared helper lemmas                                               -/
/- ------------------------------------------------------------------ -/

/-- Registration of a concatenation factors through a successful prefix. -/
theorem registerRequirements_append (eng : IndicatorEngine)
    (pre rest : List (String × PySpec))
    (h : (registerRequirements eng pre).2 = none) :
    registerRequirements eng (pre ++ rest) =
      registerRequirements (registerRequirements eng pre).1 rest := by
  induction pre generalizing eng with
  | nil => simp [registerRequirements]
  | cons p pre ih =>
    obtain ⟨req_id, spec⟩ := p
    by_cases hc : pyLower spec.type = "" ∨ pyLower spec.timeframe = ""
    · rw [registerRequirements, if_pos hc] at h
      exact absurd h (by simp)
    · simp only [List.cons_append, registerRequirements, if_neg hc] at h ⊢
      cases hbuild : buildIndicator { id := req_id, type := pyLower spec.type, timeframe := pyLower spec.timeframe, params := spec.params } with
      | error e =>
        simp only [hbuild] at h
        exact absurd h (by simp)
      | ok ind =>
        simp only [hbuild] at h ⊢
        exact ih _ h

/-- Mapping an entry-wise conditional update over an association list leaves
every entry whose value fails the condition untouched. -/
theorem lookup_map_if_frame (l : List (String × Indicator))
    (g : Indicator → Indicator) (cond : Indicator → Bool) (id : String)
    (ind : Indicator) (h : List.lookup id l = some ind)
    (hc : cond ind = false) :
    List.lookup id (l.map (fun p => if cond p.2 then (p.1, g p.2) else p)) =
      some ind := by
  induction l with
  | nil => simp at h
  | cons p l ih =>
    obtain ⟨k, v⟩ := p
    rw [List.lookup] at h
    cases hid : id == k with
    | true =>
      rw [hid] at h
      have hp : v = ind := Option.some.inj h
      subst hp
      rw [List.map_cons]
      dsimp only
      rw [if_neg (by simp [hc]), List.lookup, hid]
    | false =>
      rw [hid] at h
      have h' := ih h
      by_cases hcp : cond v = true
      · rw [List.map_cons]
        dsimp only
        rw [if_pos hcp, List.lookup, hid]
        exact h'
      · rw [List.map_cons]
        dsimp only
        rw [if_neg hcp, List.lookup, hid]
        exact h'

/-- When no entry satisfies the condition, the conditional map is the
identity. -/
theorem map_if_no_match (l : List (String × Indicator))
    (g : Indicator → Indicator) (cond : Indicator → Bool)
    (h : ∀ p ∈ l, cond p.2 = false) :
    l.map (fun p => if cond p.2 then (p.1, g p.2) else p) = l := by
  induction l with
  | nil => rfl
  | cons p l ih =>
    have h0 := h p (List.mem_cons_self p l)
    simp only [List.map_cons]
    rw [if_neg (by simp [h0])]
    rw [ih (fun q hq => h q (List.mem_cons_of_mem p hq))]

/-- `dictSet` leaves lookups at other keys unchanged. -/
theorem lookup_dictSet_ne {β : Type} (m : List (String × β)) (k tf : String)
    (v : β) (h : tf ≠ k) :
    List.lookup tf (dictSet m k v) = List.lookup tf m := by
  induction m with
  | nil =>
    simp only [dictSet, List.lookup]
    rw [show (tf == k) = false by simp [h]]
  | cons p m ih =>
    obtain ⟨k', v'⟩ := p
    by_cases hk : k' = k
    · subst hk
      rw [dictSet, if_pos rfl, List.lookup, List.lookup]
      rw [show (tf == k') = false by simp [h]]
    · rw [dictSet, if_neg hk, List.lookup, List.lookup]
      cases htf : tf == k' with
      | true => rfl
      | false => exact ih

/-- One engine update does not create or change `last_bar_ts_by_timeframe`
entries at timeframes other than the bar's. -/
theorem update_last_bar_frame (eng : IndicatorEngine) (bar : IndicatorBar)
    (now : ℤ) (tf : String) (h : tf ≠ bar.timeframe) :
    List.lookup tf (eng.update bar now).last_bar_ts_by_timeframe =
      List.lookup tf eng.last_bar_ts_by_timeframe := by
  simp only [IndicatorEngine.update]
  split
  · exact lookup_dictSet_ne _ _ _ _ h
  · rfl

/-- One engine update's wall-clock-independent result depends only on the
wall-clock-independent part of the state. -/
theorem update_core_congr (eng eng' : IndicatorEngine) (bar : IndicatorBar)
    (now now' : ℤ) (h : eng.core = eng'.core) :
    (eng.update bar now).core = (eng'.update bar now').core := by
  have hi : eng.indicators = eng'.indicators := congrArg EngineCore.indicators h
  have hr : eng.requirements = eng'.requirements := congrArg EngineCore.requirements h
  have hb : eng.last_bar_ts_by_timeframe = eng'.last_bar_ts_by_timeframe :=
    congrArg EngineCore.last_bar_ts_by_timeframe h
  simp only [IndicatorEngine.update, hi, hb]
  by_cases hc : (eng'.indicators.any
      (fun p => p.2.requirement.timeframe == bar.timeframe)) = true
  · rw [if_pos hc, if_pos hc]
    simp [IndicatorEngine.core, hr]
  · rw [if_neg hc, if_neg hc]
    simp [IndicatorEngine.core, hr]

/-- Engine runs over streams with identical bars (and any wall-clock readings)
have the same wall-clock-independent result. -/
theorem runEngine_core_congr (eng eng' : IndicatorEngine)
    (l l' : List (IndicatorBar × ℤ)) (hmap : l.map Prod.fst = l'.map Prod.fst)
    (h : eng.core = eng'.core) :
    (runEngine eng l).core = (runEngine eng' l').core := by
  induction l generalizing eng eng' l' with
  | nil =>
    cases l' with
    | nil => exact h
    | cons q' l'2 => simp at hmap
  | cons q l ih =>
    cases l' with
    | nil => simp at hmap
    | cons q' l'2 =>
      simp only [List.map_cons, List.cons.injEq] at hmap
      obtain ⟨hq, hl⟩ := hmap
      refine ih (eng.update q.1 q.2) (eng'.update q'.1 q'.2) l'2 hl ?_
      rw [← hq]
      exact update_core_congr eng eng' q.1 q.2 q'.2 h

/-- Python `int` of an integer-valued rational is that integer. -/
theorem pyInt_intCast (n : ℤ) : pyInt (n : ℚ) = n := by
  simp [pyInt]

/-- The indicator `mkEMAIndicator` returns for a validated period `p`. -/
def freshEma (req : IndicatorRequirement) (p : ℤ) : Indicator :=
  { requirement := req, bar_count := 0, last_bar_ts := none,
    state := .ema { period := p, alpha := 2 / ((p : ℚ) + 1), ema := none,
                    seedSum := 0 } }

/-- Running a concatenation of streams through an indicator. -/
theorem indicator_run_append (ind : Indicator) (l1 l2 : List IndicatorBar) :
    ind.run (l1 ++ l2) = (ind.run l1).run l2 := by
  induction l1 generalizing ind with
  | nil => rfl
  | cons b l1 ih => exact ih (ind.update b)

/-- A run advances `bar_count` by the stream length. -/
theorem indicator_run_bar_count (l : List IndicatorBar) :
    ∀ ind : Indicator, (ind.run l).bar_count = ind.bar_count + l.length := by
  induction l with
  | nil => intro ind; rfl
  | cons b l ih =>
    intro ind
    rw [Indicator.run, ih]
    simp only [Indicator.update, List.length_cons]
    omega

/-- Folding closes, written as a sum. -/
theorem foldl_add_close_eq (l : List IndicatorBar) :
    ∀ s : ℚ, l.foldl (fun a b => a + b.close) s =
      s + (l.map (fun b => b.close)).sum := by
  induction l with
  | nil => simp
  | cons b l ih =>
    intro s
    rw [List.foldl, ih (s + b.close)]
    simp
    ring

/-- One EMA update strictly below the seeding point. -/
theorem ema_update_preseed (ind : Indicator) (p : ℤ) (α seed : ℚ)
    (hs : ind.state = .ema ⟨p, α, none, seed⟩) (b : IndicatorBar)
    (hne : ((ind.bar_count : ℤ) + 1) ≠ p) :
    (ind.update b).state = .ema ⟨p, α, none, seed + b.close⟩ := by
  simp only [Indicator.update, hs, emaSpecUpdate]
  rw [if_neg (by exact_mod_cast hne)]

/-- One EMA update at the seeding point: the arithmetic-mean seed. -/
theorem ema_update_seed (ind : Indicator) (p : ℤ) (α seed : ℚ)
    (hs : ind.state = .ema ⟨p, α, none, seed⟩) (b : IndicatorBar)
    (heq : ((ind.bar_count : ℤ) + 1) = p) :
    (ind.update b).state =
      .ema ⟨p, α, some ((seed + b.close) / (p : ℚ)), seed + b.close⟩ := by
  simp only [Indicator.update, hs, emaSpecUpdate]
  rw [if_pos (by exact_mod_cast heq)]

/-- One EMA update after seeding: the exponential recurrence. -/
theorem ema_update_post (ind : Indicator) (p : ℤ) (α e seed : ℚ)
    (hs : ind.state = .ema ⟨p, α, some e, seed⟩) (b : IndicatorBar) :
    (ind.update b).state = .ema ⟨p, α, some ((b.close - e) * α + e), seed⟩ := by
  simp only [Indicator.update, hs, emaSpecUpdate]

/-- A run that stays strictly below the period accumulates the seed sum and
produces no value. -/
theorem ema_run_preseed (p : ℤ) (α : ℚ) :
    ∀ (bars : List IndicatorBar) (ind : Indicator) (seed : ℚ),
    ind.state = .ema ⟨p, α, none, seed⟩ →
    ((ind.bar_count : ℤ) + bars.length < p) →
    (ind.run bars).state =
      .ema ⟨p, α, none, bars.foldl (fun a b => a + b.close) seed⟩
  | [], _, _, hs, _ => hs
  | b :: bars, ind, seed, hs, hlt => by
    rw [Indicator.run, List.foldl]
    refine ema_run_preseed p α bars (ind.update b) (seed + b.close)
      (ema_update_preseed ind p α seed hs b ?_) ?_
    · simp only [List.length_cons] at hlt
      push_cast at hlt ⊢
      omega
    · have hc : (ind.update b).bar_count = ind.bar_count + 1 := rfl
      rw [hc]
      simp only [List.length_cons] at hlt
      push_cast at hlt ⊢
      omega

/-- After seeding, a run keeps the family, period, alpha and seed sum, and
folds the recurrence over the closes. -/
theorem ema_run_post (p : ℤ) (α : ℚ) :
    ∀ (bars : List IndicatorBar) (ind : Indicator) (e seed : ℚ),
    ind.state = .ema ⟨p, α, some e, seed⟩ →
    (ind.run bars).state =
      .ema ⟨p, α, some (bars.foldl (fun a b => (b.close - a) * α + a) e), seed⟩
  | [], _, _, _, hs => hs
  | b :: bars, ind, e, seed, hs => by
    rw [Indicator.run, List.foldl]
    exact ema_run_post p α bars (ind.update b) ((b.close - e) * α + e) seed
      (ema_update_post ind p α e seed hs b)

/-- A run preserves the EMA family together with its period and alpha. -/
theorem ema_run_family (p : ℤ) (α : ℚ) :
    ∀ (bars : List IndicatorBar) (ind : Indicator) (v : Option ℚ) (seed : ℚ),
    ind.state = .ema ⟨p, α, v, seed⟩ →
    ∃ v' seed', (ind.run bars).state = .ema ⟨p, α, v', seed'⟩
  | [], _, v, seed, hs => ⟨v, seed, hs⟩
  | b :: bars, ind, v, seed, hs => by
    rw [Indicator.run]
    cases v with
    | none =>
      by_cases hp : ((ind.bar_count : ℤ) + 1) = p
      · exact ema_run_family p α bars (ind.update b) _ _
          (ema_update_seed ind p α seed hs b hp)
      · exact ema_run_family p α bars (ind.update b) _ _
          (ema_update_preseed ind p α seed hs b hp)
    | some e =>
      exact ema_run_family p α bars (ind.update b) _ _
        (ema_update_post ind p α e seed hs b)

/-- One `_EMAState.update` step: the period is kept, the count increments,
and the value is present exactly from the period-th price on. -/
theorem emaSt_update_inv (st : EmaSt) (p : ℤ) (hp : 0 < p) (m : ℕ) (x : ℚ)
    (h1 : st.period = p) (h2 : st.count = m)
    (h3 : st.value.isSome = true ↔ p ≤ (m : ℤ)) :
    (st.update x).period = p ∧ (st.update x).count = m + 1 ∧
    ((st.update x).value.isSome = true ↔ p ≤ ((m : ℤ) + 1)) := by
  cases hv : st.value with
  | none =>
    have hnp : ¬ p ≤ (m : ℤ) := by
      intro hle
      have := h3.mpr hle
      rw [hv] at this
      simp at this
    simp only [EmaSt.update, hv, h2, h1]
    by_cases he : (((m + 1 : ℕ) : ℤ)) = p
    · rw [if_pos he]
      refine ⟨rfl, rfl, ?_⟩
      simp only [Option.isSome_some]
      constructor
      · intro _
        push_cast at he
        omega
      · intro _
        trivial
    · rw [if_neg he]
      refine ⟨rfl, rfl, ?_⟩
      simp only [Option.isSome_none]
      constructor
      · intro h
        exact absurd h (by simp)
      · intro hle
        exfalso
        push_cast at he
        omega
  | some v =>
    have hple : p ≤ (m : ℤ) := h3.mp (by rw [hv]; rfl)
    simp only [EmaSt.update, hv]
    refine ⟨h1, by rw [h2], ?_⟩
    simp only [Option.isSome_some, true_iff]
    omega

/-- Invariant characterizing the MACD state after `n` bars from a fresh
construction with `0 < fast < slow` and `0 < signal`. -/
def MacdInv (f s g : ℤ) (n : ℕ) (st : MacdIndSt) : Prop :=
  st.fastPeriod = f ∧ st.slowPeriod = s ∧ st.signalPeriod = g ∧
  st.fast.period = f ∧ st.slow.period = s ∧ st.signal.period = g ∧
  st.fast.count = n ∧ st.slow.count = n ∧
  (s ≤ (n : ℤ) → (st.signal.count : ℤ) = (n : ℤ) - s + 1) ∧
  ((n : ℤ) < s → st.signal.count = 0) ∧
  (st.fast.value.isSome = true ↔ f ≤ (n : ℤ)) ∧
  (st.slow.value.isSome = true ↔ s ≤ (n : ℤ)) ∧
  (st.signal.value.isSome = true ↔ s + g - 1 ≤ (n : ℤ)) ∧
  (st.diff.isSome = true ↔ s ≤ (n : ℤ)) ∧
  (st.macd.isSome = true ↔ s + g - 1 ≤ (n : ℤ))

/-- The MACD invariant is preserved by one `_update`. -/
theorem macdInv_step (f s g : ℤ) (hf : 0 < f) (hs : 0 < s) (hg : 0 < g)
    (hfs : f < s) (n : ℕ) (st : MacdIndSt) (h : MacdInv f s g n st) (c : ℚ) :
    MacdInv f s g (n + 1) (macdSpecUpdate st c) := by
  obtain ⟨h1, h2, h3, h4, h5, h6, h7, h8, h9a, h9b, h10, h11, h12, h13, h14⟩ := h
  obtain ⟨hf1, hf2, hf3⟩ := emaSt_update_inv st.fast f hf n c h4 h7 h10
  obtain ⟨hs1, hs2, hs3⟩ := emaSt_update_inv st.slow s hs n c h5 h8 h11
  have hsigIff : st.signal.value.isSome = true ↔ g ≤ (st.signal.count : ℤ) := by
    rw [h12]
    by_cases hcase : s ≤ (n : ℤ)
    · rw [h9a hcase]
      omega
    · rw [h9b (by omega)]
      constructor
      · intro hle
        omega
      · intro hle
        omega
  obtain ⟨hg1, hg2, hg3⟩ :=
    emaSt_update_inv st.signal g hg st.signal.count
      ((st.fast.update c).value.getD 0 - (st.slow.update c).value.getD 0)
      h6 rfl hsigIff
  simp only [macdSpecUpdate]
  by_cases hcond : ((st.fast.update c).value.isSome &&
      (st.slow.update c).value.isSome) = true
  · rw [if_pos hcond]
    have hsn1 : s ≤ ((n : ℕ) : ℤ) + 1 := by
      rw [Bool.and_eq_true] at hcond
      have := hs3.mp hcond.2
      omega
    have hsigcnt : (st.signal.count : ℤ) = (n : ℤ) - s + 1 ∨
        ((n : ℤ) + 1 = s ∧ st.signal.count = 0) := by
      by_cases hcase : s ≤ (n : ℤ)
      · exact Or.inl (h9a hcase)
      · exact Or.inr ⟨by omega, h9b (by omega)⟩
    refine ⟨h1, h2, h3, hf1, hs1, hg1, by rw [hf2], by rw [hs2], ?_, ?_, ?_, ?_, ?_, ?_, ?_⟩
    · intro _
      rw [hg2]
      push_cast
      rcases hsigcnt with hc | hc
      · omega
      · rw [hc.2]
        omega
    · intro hcontra
      push_cast at hcontra
      omega
    · rw [hf3]
      push_cast
      omega
    · rw [hs3]
      push_cast
      omega
    · rw [hg3]
      rcases hsigcnt with hc | hc
      · push_cast
        omega
      · rw [hc.2]
        push_cast
        omega
    · simp only [Option.isSome_some, true_iff]
      push_cast
      omega
    · by_cases hsig : ((st.signal.update ((st.fast.update c).value.getD 0 -
          (st.slow.update c).value.getD 0)).value.isSome) = true
      · rw [if_pos hsig]
        simp only [Option.isSome_some, true_iff]
        have hcnt := hg3.mp hsig
        rcases hsigcnt with hc | hc
        · push_cast at hcnt ⊢
          omega
        · rw [hc.2] at hcnt
          push_cast at hcnt ⊢
          omega
      · rw [if_neg hsig]
        rw [h14]
        have hnot : ¬ (g ≤ ((st.signal.count : ℤ) + 1)) := by
          intro hle
          exact hsig (hg3.mpr hle)
        rcases hsigcnt with hc | hc
        · push_cast
          omega
        · rw [hc.2] at hnot
          push_cast at hnot ⊢
          omega
  · rw [if_neg hcond]
    have hns : ((n : ℤ)) + 1 < s := by
      rw [Bool.and_eq_true] at hcond
      push_neg at hcond
      by_cases hfready : (st.fast.update c).value.isSome = true
      · have := hcond hfready
        have h' : ¬ s ≤ (n : ℤ) + 1 := fun hle => by
          exact absurd (hs3.mpr (by push_cast; omega)) this
        omega
      · have h' : ¬ f ≤ (n : ℤ) + 1 := fun hle => by
          exact absurd (hf3.mpr (by push_cast; omega)) hfready
        omega
  -- with n + 1 < s the signal, diff and macd are untouched
    refine ⟨h1, h2, h3, hf1, hs1, h6, by rw [hf2], by rw [hs2], ?_, ?_, ?_, ?_, ?_, ?_, ?_⟩
    · intro hcontra
      push_cast at hcontra
      omega
    · intro _
      exact h9b (by omega)
    · rw [hf3]
      push_cast
      omega
    · rw [hs3]
      push_cast
      omega
    · rw [h12]
      push_cast
      omega
    · rw [h13]
      push_cast
      omega
    · rw [h14]
      push_cast
      omega

/-- Running bars through a MACD indicator preserves the invariant, tracked
against `bar_count`. -/
theorem macd_run_inv (f s g : ℤ) (hf : 0 < f) (hs : 0 < s) (hg : 0 < g)
    (hfs : f < s) :
    ∀ (bars : List IndicatorBar) (ind : Indicator) (st : MacdIndSt),
    ind.state = .macd st → MacdInv f s g ind.bar_count st →
    ∃ st', (ind.run bars).state = .macd st' ∧
      MacdInv f s g (ind.run bars).bar_count st'
  | [], _, st, hst, hinv => ⟨st, hst, hinv⟩
  | b :: bars, ind, st, hst, hinv => by
    rw [Indicator.run]
    refine macd_run_inv f s g hf hs hg hfs bars (ind.update b)
      (macdSpecUpdate st b.close) ?_ ?_
    · simp only [Indicator.update, hst]
    · have hbc : (ind.update b).bar_count = ind.bar_count + 1 := rfl
      rw [hbc]
      exact macdInv_step f s g hf hs hg hfs ind.bar_count st hinv b.close

/-- Invariant characterizing the RSI state after `n` bars from a fresh
construction with period `p > 0`. -/
def RsiInv (p : ℤ) (n : ℕ) (st : RsiIndSt) : Prop :=
  st.period = p ∧
  (st.prevClose.isSome = true ↔ 1 ≤ n) ∧
  st.changeCount = n - 1 ∧
  (st.avgGain.isSome = true ↔ p + 1 ≤ (n : ℤ)) ∧
  (st.avgLoss.isSome = true ↔ p + 1 ≤ (n : ℤ))

/-- The RSI invariant is preserved by one `_update`. -/
theorem rsiInv_step (p : ℤ) (hp : 0 < p) (n : ℕ) (st : RsiIndSt)
    (h : RsiInv p n st) (c : ℚ) : RsiInv p (n + 1) (rsiSpecUpdate st c) := by
  obtain ⟨h1, h2, h3, h4, h5⟩ := h
  cases hprev : st.prevClose with
  | none =>
    have hn0 : n = 0 := by
      by_contra hne
      have := h2.mpr (by omega)
      rw [hprev] at this
      simp at this
    subst hn0
    simp only [rsiSpecUpdate, hprev]
    refine ⟨h1, by simp, by simpa using h3, ?_, ?_⟩
    · rw [h4]
      omega
    · rw [h5]
      omega
  | some prev =>
    have hn1 : 1 ≤ n := h2.mp (by rw [hprev]; rfl)
    simp only [rsiSpecUpdate, hprev]
    by_cases hseeded : p + 1 ≤ (n : ℤ)
    · obtain ⟨ag, hag⟩ := Option.isSome_iff_exists.mp (h4.mpr hseeded)
      obtain ⟨al, hal⟩ := Option.isSome_iff_exists.mp (h5.mpr hseeded)
      simp only [hag, hal]
      refine ⟨h1, by simp, by show st.changeCount + 1 = n + 1 - 1; omega, ?_, ?_⟩
      · simp only [Option.isSome_some, true_iff]
        push_cast
        omega
      · simp only [Option.isSome_some, true_iff]
        push_cast
        omega
    · have hagn : st.avgGain = none := by
        cases hg : st.avgGain with
        | none => rfl
        | some a => exact absurd (h4.mp (by rw [hg]; rfl)) hseeded
      have haln : st.avgLoss = none := by
        cases hl : st.avgLoss with
        | none => rfl
        | some a => exact absurd (h5.mp (by rw [hl]; rfl)) hseeded
      simp only [hagn, haln, h1]
      by_cases hfill : p ≤ ((st.changeCount + 1 : ℕ) : ℤ)
      · rw [if_pos hfill]
        refine ⟨rfl, by simp, by show st.changeCount + 1 = n + 1 - 1; omega, ?_, ?_⟩
        · simp only [Option.isSome_some, true_iff]
          rw [h3] at hfill
          push_cast at hfill ⊢
          omega
        · simp only [Option.isSome_some, true_iff]
          rw [h3] at hfill
          push_cast at hfill ⊢
          omega
      · rw [if_neg hfill]
        refine ⟨rfl, by simp, by show st.changeCount + 1 = n + 1 - 1; omega, ?_, ?_⟩
        · simp only [Option.isSome_none]
          rw [h3] at hfill
          constructor
          · intro hcontra
            exact absurd hcontra (by simp)
          · intro hle
            exfalso
            push_cast at hfill
            omega
        · simp only [Option.isSome_none]
          rw [h3] at hfill
          constructor
          · intro hcontra
            exact absurd hcontra (by simp)
          · intro hle
            exfalso
            push_cast at hfill
            omega

/-- Running bars through an RSI indicator preserves the invariant. -/
theorem rsi_run_inv (p : ℤ) (hp : 0 < p) :
    ∀ (bars : List IndicatorBar) (ind : Indicator) (st : RsiIndSt),
    ind.state = .rsi st → RsiInv p ind.bar_count st →
    ∃ st', (ind.run bars).state = .rsi st' ∧
      RsiInv p (ind.run bars).bar_count st'
  | [], _, st, hst, hinv => ⟨st, hst, hinv⟩
  | b :: bars, ind, st, hst, hinv => by
    rw [Indicator.run]
    refine rsi_run_inv p hp bars (ind.update b) (rsiSpecUpdate st b.close) ?_ ?_
    · simp only [Indicator.update, hst]
    · have hbc : (ind.update b).bar_count = ind.bar_count + 1 := rfl
      rw [hbc]
      exact rsiInv_step p hp ind.bar_count st hinv b.close

/-- Invariant characterizing the Bollinger state after `n` bars from a fresh
construction with period `p > 0`: the window holds `min n p` closes. -/
def BollInv (p : ℤ) (n : ℕ) (st : BollIndSt) : Prop :=
  st.period = p ∧
  ((n : ℤ) ≤ p → (st.window.length : ℤ) = n) ∧
  (p ≤ (n : ℤ) → (st.window.length : ℤ) = p)

/-- The Bollinger invariant is preserved by one `_update`. -/
theorem bollInv_step (p : ℤ) (hp : 0 < p) (n : ℕ) (st : BollIndSt)
    (h : BollInv p n st) (c : ℚ) : BollInv p (n + 1) (bollSpecUpdate st c) := by
  obtain ⟨h1, h2, h3⟩ := h
  simp only [bollSpecUpdate, h1]
  by_cases hfull : ((st.window.length : ℤ)) = p
  · have hpn : p ≤ (n : ℤ) := by
      by_contra hcon
      have := h2 (by omega)
      omega
    rw [if_pos hfull]
    have hwne : st.window ≠ [] := by
      intro hcontra
      rw [hcontra] at hfull
      simp at hfull
      omega
    cases hw : st.window with
    | nil => exact absurd hw hwne
    | cons w0 rest =>
      rw [hw] at hfull
      simp only [List.length_cons] at hfull
      refine ⟨rfl, ?_, ?_⟩
      · intro hle
        exfalso
        push_cast at hle hfull
        omega
      · intro _
        show (((rest ++ [c]).length : ℕ) : ℤ) = p
        simp only [List.length_append, List.length_cons, List.length_nil]
        push_cast at hfull ⊢
        omega
  · rw [if_neg hfull]
    have hnp1 : (n : ℤ) < p := by
      by_cases hc : (n : ℤ) ≤ p
      · rcases eq_or_lt_of_le hc with heq | hlt
        · exfalso
          exact hfull (by rw [h2 hc]; exact heq)
        · exact hlt
      · exfalso
        exact hfull (h3 (by omega))
    have hnp2 : (st.window.length : ℤ) = n := h2 (by omega)
    refine ⟨h1, ?_, ?_⟩
    · intro hle
      show (((st.window ++ [c]).length : ℕ) : ℤ) = ((n + 1 : ℕ) : ℤ)
      simp only [List.length_append, List.length_cons, List.length_nil]
      push_cast at hnp2 ⊢
      omega
    · intro hle
      show (((st.window ++ [c]).length : ℕ) : ℤ) = p
      simp only [List.length_append, List.length_cons, List.length_nil]
      push_cast at hnp2 hle ⊢
      omega

/-- Running bars through a Bollinger indicator preserves the invariant. -/
theorem boll_run_inv (p : ℤ) (hp : 0 < p) :
    ∀ (bars : List IndicatorBar) (ind : Indicator) (st : BollIndSt),
    ind.state = .boll st → BollInv p ind.bar_count st →
    ∃ st', (ind.run bars).state = .boll st' ∧
      BollInv p (ind.run bars).bar_count st'
  | [], _, st, hst, hinv => ⟨st, hst, hinv⟩
  | b :: bars, ind, st, hst, hinv => by
    rw [Indicator.run]
    refine boll_run_inv p hp bars (ind.update b) (bollSpecUpdate st b.close) ?_ ?_
    · simp only [Indicator.update, hst]
    · have hbc : (ind.update b).bar_count = ind.bar_count + 1 := rfl
      rw [hbc]
      exact bollInv_step p hp ind.bar_count st hinv b.close

/-- The state `RSIIndicator.__init__` installs. -/
def freshRsiSt (p : ℤ) : RsiIndSt :=
  { period := p, prevClose := none, avgGain := none, avgLoss := none,
    gainSum := 0, lossSum := 0, changeCount := 0 }

/-- The indicator `mkRSIIndicator` returns for a validated period `p`. -/
def freshRsi (req : IndicatorRequirement) (p : ℤ) : Indicator :=
  { requirement := req, bar_count := 0, last_bar_ts := none,
    state := .rsi (freshRsiSt p) }

/-- The state `BollingerIndicator.__init__` installs. -/
def freshBollSt (p : ℤ) (sd : ℚ) : BollIndSt :=
  { period := p, stdDev := sd, window := [], sum := 0, sumSq := 0 }

/-- The indicator `mkBollingerIndicator` returns for a validated period. -/
def freshBoll (req : IndicatorRequirement) (p : ℤ) (sd : ℚ) : Indicator :=
  { requirement := req, bar_count := 0, last_bar_ts := none,
    state := .boll (freshBollSt p sd) }

/-- The state `MACDIndicator.__init__` installs. -/
def freshMacdSt (f s g : ℤ) : MacdIndSt :=
  { fastPeriod := f, slowPeriod := s, signalPeriod := g,
    fast := { period := f, alpha := 2 / ((f : ℚ) + 1), value := none,
              seedSum := 0, count := 0 },
    slow := { period := s, alpha := 2 / ((s : ℚ) + 1), value := none,
              seedSum := 0, count := 0 },
    signal := { period := g, alpha := 2 / ((g : ℚ) + 1), value := none,
                seedSum := 0, count := 0 },
    diff := none, macd := none }

/-- The indicator `mkMACDIndicator` returns for validated periods. -/
def freshMacd (req : IndicatorRequirement) (f s g : ℤ) : Indicator :=
  { requirement := req, bar_count := 0, last_bar_ts := none,
    state := .macd (freshMacdSt f s g) }

/-- `mkMACDIndicator` under validated parameters. -/
theorem mkMACD_ok (req : IndicatorRequirement) (f s g : ℤ)
    (hf : 0 < f) (hs : 0 < s) (hg : 0 < g) (hfs : f < s)
    (hfe : f = pyInt (pyGet req.params "fast" 12))
    (hse : s = pyInt (pyGet req.params "slow" 26))
    (hge : g = pyInt (pyGet req.params "signal" 9)) :
    mkMACDIndicator req = .ok (freshMacd req f s g) := by
  simp only [mkMACDIndicator, mkEmaSt, ← hfe, ← hse, ← hge]
  rw [if_neg (by omega), if_neg (by omega), if_neg (by omega), if_neg (by omega),
    if_neg (by omega)]
  rfl

/-- After at least `p` bars a fresh EMA(p) carries a value. -/
theorem ema_fresh_run_some (p : ℤ) (hp : 0 < p) (req : IndicatorRequirement)
    (bars : List IndicatorBar) (hlen : p ≤ (bars.length : ℤ)) :
    ∃ e seed, ((freshEma req p).run bars).state =
      .ema ⟨p, 2 / ((p : ℚ) + 1), some e, seed⟩ := by
  have hbc0 : (freshEma req p).bar_count = 0 := rfl
  have hstate0 : (freshEma req p).state = .ema ⟨p, 2 / ((p : ℚ) + 1), none, 0⟩ := rfl
  have hsplit : bars.take p.toNat ++ bars.drop p.toNat = bars := List.take_append_drop _ _
  have htlen : ((bars.take p.toNat).length : ℤ) = p := by
    rw [List.length_take]
    omega
  have htne : bars.take p.toNat ≠ [] := by
    intro hcontra
    rw [hcontra] at htlen
    simp at htlen
    omega
  have hsplit2 := List.dropLast_append_getLast htne
  have hlt : (((freshEma req p).bar_count : ℤ) +
      (bars.take p.toNat).dropLast.length < p) := by
    rw [hbc0, List.length_dropLast]
    omega
  have hpre := ema_run_preseed p (2 / ((p : ℚ) + 1))
    (bars.take p.toNat).dropLast _ 0 hstate0 hlt
  have hcnt : ((freshEma req p).run (bars.take p.toNat).dropLast).bar_count =
      (bars.take p.toNat).dropLast.length := by
    rw [indicator_run_bar_count, hbc0]
    omega
  have hseed := ema_update_seed _ p (2 / ((p : ℚ) + 1)) _ hpre
    ((bars.take p.toNat).getLast htne)
    (by rw [hcnt, List.length_dropLast]; omega)
  have htake : ((freshEma req p).run (bars.take p.toNat)).state =
      .ema ⟨p, 2 / ((p : ℚ) + 1),
        some (((bars.take p.toNat).dropLast.foldl (fun a b => a + b.close) 0 +
          ((bars.take p.toNat).getLast htne).close) / (p : ℚ)),
        (bars.take p.toNat).dropLast.foldl (fun a b => a + b.close) 0 +
          ((bars.take p.toNat).getLast htne).close⟩ := by
    conv_lhs => rw [← hsplit2]
    rw [indicator_run_append, Indicator.run, Indicator.run]
    exact hseed
  have hfin := ema_run_post p (2 / ((p : ℚ) + 1)) (bars.drop p.toNat) _ _ _ htake
  refine ⟨(bars.drop p.toNat).foldl
      (fun a b => (b.close - a) * (2 / ((p : ℚ) + 1)) + a)
      (((bars.take p.toNat).dropLast.foldl (fun a b => a + b.close) 0 +
        ((bars.take p.toNat).getLast htne).close) / (p : ℚ)),
    (bars.take p.toNat).dropLast.foldl (fun a b => a + b.close) 0 +
      ((bars.take p.toNat).getLast htne).close, ?_⟩
  conv_lhs => rw [← hsplit]
  rw [indicator_run_append]
  exact hfin

/-- Folding volumes, written as a sum. -/
theorem foldl_add_volume_eq (l : List IndicatorBar) :
    ∀ s : ℚ, l.foldl (fun a b => a + b.volume) s =
      s + (l.map (fun b => b.volume)).sum := by
  induction l with
  | nil => simp
  | cons b l ih =>
    intro s
    rw [List.foldl, ih (s + b.volume)]
    simp
    ring

/-- Folding the running close is the last element's close. -/
theorem foldl_close_getLast :
    ∀ (l : List IndicatorBar) (c : ℚ) (h : l ≠ []),
    l.foldl (fun _ b => b.close) c = (l.getLast h).close
  | [], _, h => absurd rfl h
  | [b], c, _ => rfl
  | b :: b' :: l, c, _ => by
    rw [List.foldl, List.getLast_cons (List.cons_ne_nil b' l)]
    exact foldl_close_getLast (b' :: l) b.close (List.cons_ne_nil b' l)

/-- Timestamps inside a period map to its aligned start under `//`-based
period computation. -/
theorem fdiv_period_start (T ps off : ℤ) (hT : 0 < T) (hps : ps % T = 0)
    (h0 : 0 ≤ off) (hlt : off < T) : Int.fdiv (ps + off) T * T = ps := by
  obtain ⟨q, hq⟩ : ∃ q, ps = T * q :=
    ⟨ps / T, (Int.mul_ediv_cancel_of_emod_eq_zero hps).symm⟩
  subst hq
  rw [Int.fdiv_eq_ediv _ (by omega)]
  rw [show T * q + off = off + q * T by ring]
  rw [Int.add_mul_ediv_right _ _ (by omega : T ≠ 0)]
  rw [Int.ediv_eq_zero_of_lt h0 hlt]
  ring

/-- `add` on a bar of the current period that does not close it: the bar is
folded into the pending aggregate and nothing is emitted. -/
theorem add_in_period_continue (r : OhlcvResampler) (bar : IndicatorBar)
    (ps : ℤ) (o hi lo : ℚ)
    (hcur : r.current_period_start = some ps)
    (hbps : r.getPeriodStart bar.timestamp = ps)
    (ho : r.pending_open = some o) (hh : r.pending_high = some hi)
    (hl : r.pending_low = some lo)
    (hlast : r.isPeriodLastBar bar.timestamp = false) :
    r.add bar =
      ({ r with current_period_start := some ps,
                pending_high := some (max hi bar.high),
                pending_low := some (min lo bar.low),
                pending_close := bar.close,
                pending_volume := r.pending_volume + bar.volume,
                count := r.count + 1 }, none) := by
  obtain ⟨stf, ttf, rat, sms, tms, cps, po0, ph0, pl0, pc0, pv0, pts0, cnt0⟩ := r
  simp only [OhlcvResampler.getPeriodStart, OhlcvResampler.isPeriodLastBar] at *
  subst hcur ho hh hl
  have hlast2 : ¬ (ps + tms ≤ bar.timestamp + sms) := by
    have h := of_decide_eq_false hlast
    rw [hbps] at h
    exact h
  simp [OhlcvResampler.add, OhlcvResampler.getPeriodStart,
    OhlcvResampler.isPeriodLastBar, hbps, hlast2]

/-- `add` on the last bar of the current period: the completed aggregate is
emitted and the state is reset. -/
theorem add_in_period_close (r : OhlcvResampler) (bar : IndicatorBar)
    (ps : ℤ) (o hi lo : ℚ)
    (hcur : r.current_period_start = some ps)
    (hbps : r.getPeriodStart bar.timestamp = ps)
    (ho : r.pending_open = some o) (hh : r.pending_high = some hi)
    (hl : r.pending_low = some lo)
    (hlast : r.isPeriodLastBar bar.timestamp = true) :
    r.add bar =
      ({ r with current_period_start := none, pending_open := none,
                pending_high := none, pending_low := none, pending_close := 0,
                pending_volume := 0, count := 0 },
       some { timestamp := r.pending_ts, open_ := o,
              high := max hi bar.high, low := min lo bar.low,
              close := bar.close, volume := r.pending_volume + bar.volume,
              timeframe := r.target_tf }) := by
  obtain ⟨stf, ttf, rat, sms, tms, cps, po0, ph0, pl0, pc0, pv0, pts0, cnt0⟩ := r
  simp only [OhlcvResampler.getPeriodStart, OhlcvResampler.isPeriodLastBar] at *
  subst hcur ho hh hl
  have hlast2 : ps + tms ≤ bar.timestamp + sms := by
    have h := of_decide_eq_true hlast
    rw [hbps] at h
    exact h
  simp [OhlcvResampler.add, OhlcvResampler.getPeriodStart,
    OhlcvResampler.isPeriodLastBar, OhlcvResampler.resetState,
    OhlcvResampler.createOutputBar, hbps, hlast2]

/-- `add` on the first bar of a fresh resampler that does not already close
its period: the aggregate is initialized from the bar. -/
theorem add_fresh_continue (r : OhlcvResampler) (bar : IndicatorBar)
    (hcur : r.current_period_start = none)
    (ho : r.pending_open = none) (hh : r.pending_high = none)
    (hl : r.pending_low = none)
    (hlast : r.isPeriodLastBar bar.timestamp = false) :
    r.add bar =
      ({ r with current_period_start := some (r.getPeriodStart bar.timestamp),
                pending_open := some bar.open_,
                pending_ts := r.getPeriodStart bar.timestamp,
                pending_high := some bar.high, pending_low := some bar.low,
                pending_close := bar.close,
                pending_volume := r.pending_volume + bar.volume,
                count := r.count + 1 }, none) := by
  obtain ⟨stf, ttf, rat, sms, tms, cps, po0, ph0, pl0, pc0, pv0, pts0, cnt0⟩ := r
  simp only [OhlcvResampler.getPeriodStart, OhlcvResampler.isPeriodLastBar] at *
  subst hcur ho hh hl
  simp [OhlcvResampler.add, OhlcvResampler.getPeriodStart,
    OhlcvResampler.isPeriodLastBar, hlast]

/-- `add` on the first bar of a fresh resampler when that bar already closes
its period (ratio 1): the single-bar aggregate is emitted at once. -/
theorem add_fresh_close (r : OhlcvResampler) (bar : IndicatorBar)
    (hcur : r.current_period_start = none)
    (ho : r.pending_open = none) (hh : r.pending_high = none)
    (hl : r.pending_low = none)
    (hlast : r.isPeriodLastBar bar.timestamp = true) :
    r.add bar =
      ({ r with current_period_start := none, pending_open := none,
                pending_high := none, pending_low := none, pending_close := 0,
                pending_volume := 0,
                pending_ts := r.getPeriodStart bar.timestamp, count := 0 },
       some { timestamp := r.getPeriodStart bar.timestamp, open_ := bar.open_,
              high := bar.high, low := bar.low, close := bar.close,
              volume := r.pending_volume + bar.volume,
              timeframe := r.target_tf }) := by
  obtain ⟨stf, ttf, rat, sms, tms, cps, po0, ph0, pl0, pc0, pv0, pts0, cnt0⟩ := r
  simp only [OhlcvResampler.getPeriodStart, OhlcvResampler.isPeriodLastBar] at *
  subst hcur ho hh hl
  simp [OhlcvResampler.add, OhlcvResampler.getPeriodStart,
    OhlcvResampler.isPeriodLastBar, OhlcvResampler.resetState,
    OhlcvResampler.createOutputBar, hlast]

/-- Feeding the remaining bars of one target period into a resampler that
already aggregates its first bars: nothing is emitted until the period's
final source bar, whose `add` call returns the full aggregate. -/
theorem addMany_fill (stf ttf : String) (rat S T ps : ℤ)
    (hS : 0 < S) (hT : T = rat * S) (hps : ps % T = 0) :
    ∀ (rest : List IndicatorBar) (k : ℤ) (o hi lo cl vol : ℚ) (cnt : ℕ),
    rest ≠ [] → 1 ≤ k → k + rest.length = rat →
    (∀ i (h : i < rest.length), (rest.get ⟨i, h⟩).timestamp = ps + (k + i) * S) →
    OhlcvResampler.addMany
      { source_tf := stf, target_tf := ttf, ratio := rat,
        source_seconds_ms := S, target_seconds_ms := T,
        current_period_start := some ps, pending_open := some o,
        pending_high := some hi, pending_low := some lo, pending_close := cl,
        pending_volume := vol, pending_ts := ps, count := cnt } rest =
    ({ source_tf := stf, target_tf := ttf, ratio := rat,
       source_seconds_ms := S, target_seconds_ms := T,
       current_period_start := none, pending_open := none,
       pending_high := none, pending_low := none, pending_close := 0,
       pending_volume := 0, pending_ts := ps, count := 0 },
     [{ timestamp := ps, open_ := o,
        high := rest.foldl (fun a b => max a b.high) hi,
        low := rest.foldl (fun a b => min a b.low) lo,
        close := rest.foldl (fun _ b => b.close) cl,
        volume := rest.foldl (fun a b => a + b.volume) vol,
        timeframe := ttf }]) := by
  intro rest
  induction rest with
  | nil => intro k o hi lo cl vol cnt hne _ _ _; exact absurd rfl hne
  | cons b rest ih =>
    intro k o hi lo cl vol cnt _ hk hlen hts
    have htsb : b.timestamp = ps + k * S := by
      have h := hts 0 (by simp)
      simpa using h
    have hklt : k < rat := by
      simp only [List.length_cons] at hlen
      push_cast at hlen
      omega
    have hTpos : 0 < T := by
      rw [hT]
      exact mul_pos (by omega) hS
    have hbps : OhlcvResampler.getPeriodStart
        { source_tf := stf, target_tf := ttf, ratio := rat,
          source_seconds_ms := S, target_seconds_ms := T,
          current_period_start := some ps, pending_open := some o,
          pending_high := some hi, pending_low := some lo, pending_close := cl,
          pending_volume := vol, pending_ts := ps,
          count := cnt } b.timestamp = ps := by
      simp only [OhlcvResampler.getPeriodStart, pyFloorDiv]
      rw [htsb]
      exact fdiv_period_start T ps (k * S) hTpos hps
        (mul_nonneg (by omega) (by omega))
        (by rw [hT]; exact mul_lt_mul_of_pos_right hklt hS)
    cases rest with
    | nil =>
      have hkr : k + 1 = rat := by
        simp only [List.length_cons, List.length_nil] at hlen
        push_cast at hlen
        omega
      have hlast : OhlcvResampler.isPeriodLastBar
          { source_tf := stf, target_tf := ttf, ratio := rat,
            source_seconds_ms := S, target_seconds_ms := T,
            current_period_start := some ps, pending_open := some o,
            pending_high := some hi, pending_low := some lo, pending_close := cl,
            pending_volume := vol, pending_ts := ps,
            count := cnt } b.timestamp = true := by
        simp only [OhlcvResampler.isPeriodLastBar, OhlcvResampler.getPeriodStart,
          pyFloorDiv] at hbps ⊢
        rw [decide_eq_true_eq, show Int.fdiv b.timestamp T * T = ps from hbps,
          htsb, hT, ← hkr]
        have harith : (k + 1) * S = k * S + S := by ring
        omega
      rw [OhlcvResampler.addMany,
        add_in_period_close _ b ps o hi lo rfl hbps rfl rfl rfl hlast]
      simp [OhlcvResampler.addMany]
    | cons b2 rest2 =>
      have hk2 : k + 2 ≤ rat := by
        simp only [List.length_cons] at hlen
        push_cast at hlen
        have hlen2 : (0 : ℤ) ≤ rest2.length := by positivity
        omega
      have hlast : OhlcvResampler.isPeriodLastBar
          { source_tf := stf, target_tf := ttf, ratio := rat,
            source_seconds_ms := S, target_seconds_ms := T,
            current_period_start := some ps, pending_open := some o,
            pending_high := some hi, pending_low := some lo, pending_close := cl,
            pending_volume := vol, pending_ts := ps,
            count := cnt } b.timestamp = false := by
        simp only [OhlcvResampler.isPeriodLastBar, OhlcvResampler.getPeriodStart,
          pyFloorDiv] at hbps ⊢
        rw [decide_eq_false_iff_not, show Int.fdiv b.timestamp T * T = ps from hbps,
          htsb, hT]
        have harith : (k + 1) * S ≤ rat * S :=
          mul_le_mul_of_nonneg_right (by omega) (by omega)
        have harith2 : (k + 1) * S = k * S + S := by ring
        have hstrict : (k + 1) * S < rat * S :=
          mul_lt_mul_of_pos_right (by omega) hS
        omega
      rw [OhlcvResampler.addMany,
        add_in_period_continue _ b ps o hi lo rfl hbps rfl rfl rfl hlast]
      have hrec := ih (k + 1) o (max hi b.high) (min lo b.low) b.close
        (vol + b.volume) (cnt + 1) (by simp) (by omega)
        (by simp only [List.length_cons] at hlen ⊢; push_cast at hlen ⊢; omega)
        (fun i h => by
          have h2 := hts (i + 1) (by simp only [List.length_cons] at h ⊢; omega)
          simp only [List.get_cons_succ] at h2
          rw [h2]
          push_cast
          ring)
      rw [hrec]
      simp [List.foldl]

/-- Every snapshot field except `timestamp` is computed from the
wall-clock-independent part of the engine state. -/
theorem snapshot_erase_core_congr (eng eng' : IndicatorEngine)
    (h : eng.core = eng'.core) :
    eng.snapshot.eraseTimestamp = eng'.snapshot.eraseTimestamp := by
  have hi : eng.indicators = eng'.indicators := congrArg EngineCore.indicators h
  have hb : eng.last_bar_ts_by_timeframe = eng'.last_bar_ts_by_timeframe :=
    congrArg EngineCore.last_bar_ts_by_timeframe h
  simp only [IndicatorEngine.snapshot, Snapshot.eraseTimestamp, hi, hb]

/-- A 5m EMA(1) indicator instance, as stored by registration. -/
def c3exInd : Indicator :=
  { requirement := { id := "x", type := "ema", timeframe := "5m",
                     params := [("period", 1)] },
    bar_count := 0, last_bar_ts := none,
    state := .ema { period := 1, alpha := 1, ema := none, seedSum := 0 } }

/-- An engine holding only the 5m EMA above. -/
def c3exEngine : IndicatorEngine :=
  { requirements := [("x", c3exInd.requirement)],
    indicators := [("x", c3exInd)],
    last_update_ts := none, last_bar_ts_by_timeframe := [] }

/-- Five gap-free 1m bars filling the 5m period that starts at 0. -/
def c3exBars : List IndicatorBar :=
  [{ timestamp := 0, open_ := 10, high := 11, low := 9, close := 10, volume := 1, timeframe := "1m" },
   { timestamp := 60000, open_ := 11, high := 12, low := 10, close := 11, volume := 1, timeframe := "1m" },
   { timestamp := 120000, open_ := 12, high := 13, low := 11, close := 12, volume := 1, timeframe := "1m" },
   { timestamp := 180000, open_ := 13, high := 14, low := 12, close := 13, volume := 1, timeframe := "1m" },
   { timestamp := 240000, open_ := 14, high := 15, low := 13, close := 14, volume := 1, timeframe := "1m" }]

/-- The same five bars paired with wall-clock instants, as an engine stream. -/
def c3exStream : List (IndicatorBar × ℤ) := c3exBars.map (fun b => (b, b.timestamp))

/-- A freshly constructed 1m→5m resampler (what
`mkOhlcvResampler "1m" "5m" 5` yields). -/
def c3exResampler : OhlcvResampler :=
  { source_tf := "1m", target_tf := "5m", ratio := 5,
    source_seconds_ms := 60000, target_seconds_ms := 300000,
    current_period_start := none, pending_open := none, pending_high := none,
    pending_low := none, pending_close := 0, pending_volume := 0,
    pending_ts := 0, count := 0 }

/-- A second freshly constructed 1m→5m resampler, used to instantiate the
resample-conservation theorem on the S5 inputs. -/
def c5exResampler : OhlcvResampler :=
  { source_tf := "1m", target_tf := "5m", ratio := 5,
    source_seconds_ms := 60000, target_seconds_ms := 300000,
    current_period_start := none, pending_open := none, pending_high := none,
    pending_low := none, pending_close := 0, pending_volume := 0,
    pending_ts := 0, count := 0 }

/-- The S5 source stream: five gap-free 1m bars with opens 10..14, highs
11..15, lows 9..13, closes 10..14 and unit volumes, filling the 5m period
that starts at timestamp 0. -/
def c5exBars : List IndicatorBar :=
  [{ timestamp := 0, open_ := 10, high := 11, low := 9, close := 10, volume := 1, timeframe := "1m" },
   { timestamp := 60000, open_ := 11, high := 12, low := 10, close := 11, volume := 1, timeframe := "1m" },
   { timestamp := 120000, open_ := 12, high := 13, low := 11, close := 12, volume := 1, timeframe := "1m" },
   { timestamp := 180000, open_ := 13, high := 14, low := 12, close := 13, volume := 1, timeframe := "1m" },
   { timestamp := 240000, open_ := 14, high := 15, low := 13, close := 14, volume := 1, timeframe := "1m" }]

/- ------------------------------------------------------------------ -/
/- Theorems                                                           -/
/- ------------------------------------------------------------------ -/

/-- Both branches of `IndicatorEngine.update` install the same mapped
indicator list. -/
theorem update_indicators_eq (eng : IndicatorEngine) (bar : IndicatorBar)
    (now : ℤ) :
    (eng.update bar now).indicators = eng.indicators.map (fun p =>
      if p.2.requirement.timeframe == bar.timeframe then (p.1, p.2.update bar)
      else p) := by
  simp only [IndicatorEngine.update]
  split <;> rfl

/-- C2, counterexample. Registering a two-entry map whose first entry is a
valid EMA and whose second has an unsupported type fails, yet afterwards the
engine holds the first entry in full (requirement and indicator) and even the
failing entry's requirement: the maps are not what they were before the
call. -/
theorem c2_registration_not_atomic :
    (registerRequirements emptyEngine [("a", c2exSpecA), ("b", c2exSpecB)]).2 =
      some "unsupported indicator type: bogus" ∧
    ((registerRequirements emptyEngine
        [("a", c2exSpecA), ("b", c2exSpecB)]).1.requirements.map Prod.fst) =
      ["a", "b"] ∧
    ((registerRequirements emptyEngine
        [("a", c2exSpecA), ("b", c2exSpecB)]).1.indicators.map Prod.fst) =
      ["a"] ∧
    emptyEngine.requirements = [] ∧ emptyEngine.indicators = [] :=
  ⟨rfl, rfl, rfl, rfl, rfl⟩

/-- C2, amended: registration processes entries in order and mutates the
engine as it goes. When an entry fails after a successfully registered
prefix, the engine afterwards holds every prefix entry in full; for a failing
entry whose type and timeframe strings are non-empty but whose indicator
construction fails, the failing entry's requirement — but not its indicator —
is registered as well, and no later entry is processed. -/
theorem c2_registration_failure_keeps_prefix (eng : IndicatorEngine)
    (pre post : List (String × PySpec)) (req_id : String) (spec : PySpec)
    (e : String)
    (hpre : (registerRequirements eng pre).2 = none)
    (htype : ¬(pyLower spec.type = "" ∨ pyLower spec.timeframe = ""))
    (hbuild : buildIndicator { id := req_id, type := pyLower spec.type, timeframe := pyLower spec.timeframe, params := spec.params } = .error e) :
    registerRequirements eng (pre ++ (req_id, spec) :: post) =
      ({ (registerRequirements eng pre).1 with
         requirements :=
           dictSet (registerRequirements eng pre).1.requirements req_id
             { id := req_id, type := pyLower spec.type,
               timeframe := pyLower spec.timeframe, params := spec.params } },
       some e) := by
  rw [registerRequirements_append eng pre _ hpre]
  simp only [registerRequirements, if_neg htype, hbuild]

/-- C2, witness for the amended theorem: the concrete two-entry registration
instantiating `pre = [("a", ema)]`, failing entry `("b", bogus)`. -/
theorem c2_registration_failure_keeps_prefix_witness :
    registerRequirements emptyEngine ([("a", c2exSpecA)] ++ ("b", c2exSpecB) :: []) =
      ({ (registerRequirements emptyEngine [("a", c2exSpecA)]).1 with
         requirements :=
           dictSet (registerRequirements emptyEngine [("a", c2exSpecA)]).1.requirements "b"
             { id := "b", type := pyLower c2exSpecB.type,
               timeframe := pyLower c2exSpecB.timeframe,
               params := c2exSpecB.params } },
       some "unsupported indicator type: bogus") :=
  c2_registration_failure_keeps_prefix emptyEngine [("a", c2exSpecA)] [] "b"
    c2exSpecB "unsupported indicator type: bogus" rfl (by decide) rfl

/-- A fresh EMA(2) indicator instance registered on "1m". -/
def c10exInd : Indicator :=
  { requirement := { id := "a", type := "ema", timeframe := "1m",
                     params := [("period", 2)] },
    bar_count := 0, last_bar_ts := none,
    state := .ema { period := 2, alpha := 2 / 3, ema := none, seedSum := 0 } }

/-- An engine holding only the "1m" EMA above. -/
def c10exEngine : IndicatorEngine :=
  { requirements := [("a", c10exInd.requirement)],
    indicators := [("a", c10exInd)],
    last_update_ts := none, last_bar_ts_by_timeframe := [] }

/-- C10, confirmed: `update` leaves every indicator whose requirement
timeframe differs from the bar's timeframe exactly as it was (hence same
`bar_count`, `last_bar_ts` and `value()`); and when no registered indicator
has the bar's timeframe the whole engine state is unchanged — in particular
`last_bar_ts_by_timeframe` and the snapshot (its `timestamp` field
included). -/
theorem c10_update_frame (eng : IndicatorEngine) (bar : IndicatorBar)
    (now : ℤ) :
    (∀ id ind, List.lookup id eng.indicators = some ind →
      ind.requirement.timeframe ≠ bar.timeframe →
      List.lookup id (eng.update bar now).indicators = some ind) ∧
    ((∀ p ∈ eng.indicators, p.2.requirement.timeframe ≠ bar.timeframe) →
      eng.update bar now = eng ∧
      (eng.update bar now).snapshot = eng.snapshot) := by
  constructor
  · intro id ind hl hne
    rw [update_indicators_eq]
    exact lookup_map_if_frame eng.indicators (fun i => i.update bar)
      (fun i => i.requirement.timeframe == bar.timeframe) id ind hl (by simp [hne])
  · intro hall
    have heq : eng.update bar now = eng := by
      have hanyf : (eng.indicators.any
          (fun p => p.2.requirement.timeframe == bar.timeframe)) = false := by
        rw [List.any_eq_false]
        intro p hp
        simp [hall p hp]
      have hmap := map_if_no_match eng.indicators (fun i => i.update bar)
        (fun i => i.requirement.timeframe == bar.timeframe)
        (fun p hp => by simp [hall p hp])
      simp only [IndicatorEngine.update, hanyf]
      simp only [Bool.false_eq_true, if_false]
      rw [show (eng.indicators.map (fun p =>
          if p.2.requirement.timeframe == bar.timeframe then (p.1, p.2.update bar)
          else p)) = eng.indicators from hmap]
    exact ⟨heq, by rw [heq]⟩

/-- C10, witness: the frame property instantiated at `c10exEngine` (one EMA
on "1m") and a "5m" bar. -/
theorem c10_update_frame_witness :
    List.lookup "a" (c10exEngine.update c10exBar 99).indicators = some c10exInd ∧
    c10exEngine.update c10exBar 99 = c10exEngine :=
  ⟨(c10_update_frame c10exEngine c10exBar 99).1 "a" c10exInd rfl (by decide),
   ((c10_update_frame c10exEngine c10exBar 99).2 (by decide)).1⟩

/-- C3, counterexample. `register_requirements` takes no `source_timeframe`
and the engine holds no resamplers: after feeding five gap-free 1m bars that
fill the 5m period starting at 0 — a stream on which a standalone 1m→5m
`OhlcvResampler` emits the aggregated 5m bar with timestamp 0 — the
registered 5m indicator is exactly its fresh state (0 bars seen) and
`last_bar_ts_by_timeframe` has no "5m" entry, contradicting the claimed
resampler feeding and indicator updates inside `update`. -/
theorem c3_engine_performs_no_resampling :
    List.lookup "x" (runEngine c3exEngine c3exStream).indicators = some c3exInd ∧
    c3exInd.bar_count = 0 ∧
    List.lookup "5m" (runEngine c3exEngine c3exStream).last_bar_ts_by_timeframe =
      none ∧
    mkOhlcvResampler "1m" "5m" 5 = .ok c3exResampler ∧
    (c3exResampler.addMany c3exBars).2.map (fun b => b.timeframe) = ["5m"] ∧
    (c3exResampler.addMany c3exBars).2.map (fun b => b.timestamp) = [0] :=
  ⟨rfl, rfl, rfl, rfl, rfl, rfl⟩

/-- C3, amended: the engine performs no resampling at all.
`register_requirements` accepts only the specs map (no `source_timeframe`)
and creates no resamplers; over any stream of bars sharing one timeframe
`t`, `update` leaves every indicator registered on a different timeframe in
its exact prior state and neither creates nor changes
`last_bar_ts_by_timeframe` entries for any other timeframe. Aggregation to
higher timeframes exists only in the standalone `OhlcvResampler`, which the
engine never invokes. -/
theorem c3_no_cross_timeframe_effects (eng : IndicatorEngine)
    (l : List (IndicatorBar × ℤ)) (t : String)
    (hl : ∀ q ∈ l, (q : IndicatorBar × ℤ).1.timeframe = t) :
    (∀ id ind, List.lookup id eng.indicators = some ind →
      ind.requirement.timeframe ≠ t →
      List.lookup id (runEngine eng l).indicators = some ind) ∧
    (∀ tf, tf ≠ t →
      List.lookup tf (runEngine eng l).last_bar_ts_by_timeframe =
        List.lookup tf eng.last_bar_ts_by_timeframe) := by
  induction l generalizing eng with
  | nil => exact ⟨fun id ind h _ => h, fun tf _ => rfl⟩
  | cons q l ih =>
    obtain ⟨bar, now⟩ := q
    have hbar : bar.timeframe = t := hl (bar, now) (List.mem_cons_self _ _)
    have htail : ∀ q ∈ l, (q : IndicatorBar × ℤ).1.timeframe = t :=
      fun q hq => hl q (List.mem_cons_of_mem _ hq)
    constructor
    · intro id ind hlk hne
      have h1 : List.lookup id (eng.update bar now).indicators = some ind := by
        rw [update_indicators_eq]
        exact lookup_map_if_frame eng.indicators (fun i => i.update bar)
          (fun i => i.requirement.timeframe == bar.timeframe) id ind hlk
          (by simp [hbar, hne])
      exact (ih (eng.update bar now) htail).1 id ind h1 hne
    · intro tf htf
      have h2 := update_last_bar_frame eng bar now tf (by rw [hbar]; exact htf)
      calc List.lookup tf (runEngine (eng.update bar now) l).last_bar_ts_by_timeframe
          = List.lookup tf (eng.update bar now).last_bar_ts_by_timeframe :=
            (ih (eng.update bar now) htail).2 tf htf
        _ = List.lookup tf eng.last_bar_ts_by_timeframe := h2

/-- C3, witness for the amended theorem at the concrete 5m-EMA engine and the
five 1m bars. -/
theorem c3_no_cross_timeframe_effects_witness :
    List.lookup "x" (runEngine c3exEngine c3exStream).indicators = some c3exInd ∧
    List.lookup "5m" (runEngine c3exEngine c3exStream).last_bar_ts_by_timeframe =
      List.lookup "5m" c3exEngine.last_bar_ts_by_timeframe :=
  ⟨(c3_no_cross_timeframe_effects c3exEngine c3exStream "1m" (by decide)).1
      "x" c3exInd rfl (by decide),
   (c3_no_cross_timeframe_effects c3exEngine c3exStream "1m" (by decide)).2
      "5m" (by decide)⟩

/-- The engine of the snapshot-determinism counterexample: one 1m EMA(1). -/
def c1exEngine : IndicatorEngine :=
  { requirements := [("e", { id := "e", type := "ema", timeframe := "1m",
                             params := [("period", 1)] })],
    indicators := [("e", { requirement := { id := "e", type := "ema",
                                            timeframe := "1m",
                                            params := [("period", 1)] },
                           bar_count := 0, last_bar_ts := none,
                           state := .ema { period := 1, alpha := 1,
                                           ema := none, seedSum := 0 } })],
    last_update_ts := none, last_bar_ts_by_timeframe := [] }

/-- The single 1m bar fed to both copies of the engine. -/
def c1exBar : IndicatorBar :=
  { timestamp := 0, open_ := 10, high := 10, low := 10, close := 10,
    volume := 0, timeframe := "1m" }

/-- C1, counterexample. Two engines with identical registrations fed the
identical bar produce different `snapshot()` results when their `update`
calls observe different wall clocks: the top-level `"timestamp"` field is
`int(time.time() * 1000)`, not a function of the bar stream. -/
theorem c1_wallclock_breaks_determinism :
    (c1exEngine.update c1exBar 5).snapshot ≠
      (c1exEngine.update c1exBar 7).snapshot := by
  intro h
  have h5 : (c1exEngine.update c1exBar 5).snapshot.timestamp = some 5 := rfl
  have h7 : (c1exEngine.update c1exBar 7).snapshot.timestamp = some 7 := rfl
  rw [h, h7] at h5
  exact absurd (Option.some.inj h5) (by decide)

/-- C1, amended: two engines given identical `register_requirements` calls
and identical bar streams produce snapshots that are identical in every key
and value except the top-level `"timestamp"` field, whatever wall-clock
instants their updates observe (with equal wall clocks the snapshots are
fully identical, the run being a pure function). The statement quantifies
over arbitrary streams, so it holds after every bar of a stream. -/
theorem c1_snapshot_determinism_mod_timestamp (specs : List (String × PySpec))
    (l l' : List (IndicatorBar × ℤ))
    (h : l.map Prod.fst = l'.map Prod.fst) :
    (runEngine (registerRequirements emptyEngine specs).1 l).snapshot.eraseTimestamp =
      (runEngine (registerRequirements emptyEngine specs).1 l').snapshot.eraseTimestamp :=
  snapshot_erase_core_congr _ _
    (runEngine_core_congr _ _ _ _ h rfl)

/-- C1, witness for the amended theorem: the EMA(1) registration fed one bar
under wall clocks 5 and 7. -/
theorem c1_snapshot_determinism_mod_timestamp_witness :
    ([((c1exBar, 5) : IndicatorBar × ℤ)].map Prod.fst =
        ([((c1exBar, 7) : IndicatorBar × ℤ)].map Prod.fst)) ∧
    (runEngine (registerRequirements emptyEngine
        [("e", { type := "ema", timeframe := "1m", params := [("period", 1)] })]).1
        [(c1exBar, 5)]).snapshot.eraseTimestamp =
      (runEngine (registerRequirements emptyEngine
        [("e", { type := "ema", timeframe := "1m", params := [("period", 1)] })]).1
        [(c1exBar, 7)]).snapshot.eraseTimestamp :=
  ⟨rfl, c1_snapshot_determinism_mod_timestamp
    [("e", { type := "ema", timeframe := "1m", params := [("period", 1)] })]
    [(c1exBar, 5)] [(c1exBar, 7)] rfl⟩

/-- C6, confirmed: for every period p > 0 and every bar stream, the EMA
indicator reports null before the p-th bar, the arithmetic mean of the first
p closes at the p-th bar, and thereafter follows
`ema ← (close − ema)·α + ema` with `α = 2/(p+1)`. -/
theorem c6_ema_seed_and_recurrence (req : IndicatorRequirement)
    (ind0 : Indicator) (p : ℤ)
    (hp : p = pyInt (pyGet req.params "period" 0))
    (hreg : mkEMAIndicator req = .ok ind0) :
    (∀ bars : List IndicatorBar, (bars.length : ℤ) < p →
      (ind0.run bars).value = .scalar none) ∧
    (∀ bars : List IndicatorBar, (bars.length : ℤ) = p →
      (ind0.run bars).value =
        .scalar (some ((bars.map (fun b => b.close)).sum / (p : ℚ)))) ∧
    (∀ (bars : List IndicatorBar) (b : IndicatorBar) (e : ℚ),
      (ind0.run bars).value = .scalar (some e) →
      (ind0.run (bars ++ [b])).value =
        .scalar (some ((b.close - e) * (2 / ((p : ℚ) + 1)) + e))) := by
  simp only [mkEMAIndicator] at hreg
  rw [← hp] at hreg
  by_cases hple : p ≤ 0
  · rw [if_pos hple] at hreg
    exact absurd hreg (by simp)
  rw [if_neg hple] at hreg
  have hind : ind0 = freshEma req p := (Except.ok.inj hreg).symm
  subst hind
  have hstate0 : (freshEma req p).state = .ema ⟨p, 2 / ((p : ℚ) + 1), none, 0⟩ := rfl
  have hbc0 : (freshEma req p).bar_count = 0 := rfl
  refine ⟨?_, ?_, ?_⟩
  · intro bars hlt
    have hst := ema_run_preseed p (2 / ((p : ℚ) + 1)) bars _ 0 hstate0
      (by rw [hbc0]; simpa using hlt)
    simp [Indicator.value, hst]
  · intro bars hlen
    have hne : bars ≠ [] := by
      intro h
      rw [h] at hlen
      simp at hlen
      omega
    have hsplit := List.dropLast_append_getLast hne
    have hlt : (((freshEma req p).bar_count : ℤ) + bars.dropLast.length < p) := by
      rw [hbc0, List.length_dropLast]
      omega
    have hpre := ema_run_preseed p (2 / ((p : ℚ) + 1)) bars.dropLast _ 0 hstate0 hlt
    have hcnt : ((freshEma req p).run bars.dropLast).bar_count =
        bars.dropLast.length := by
      rw [indicator_run_bar_count, hbc0]
      omega
    have hlast := ema_update_seed _ p (2 / ((p : ℚ) + 1)) _ hpre (bars.getLast hne)
      (by rw [hcnt, List.length_dropLast]; omega)
    have hfull : ((freshEma req p).run bars).state = .ema ⟨p, 2 / ((p : ℚ) + 1),
        some ((bars.dropLast.foldl (fun a b => a + b.close) 0 +
          (bars.getLast hne).close) / (p : ℚ)),
        bars.dropLast.foldl (fun a b => a + b.close) 0 +
          (bars.getLast hne).close⟩ := by
      conv_lhs => rw [← hsplit]
      rw [indicator_run_append, Indicator.run, Indicator.run]
      exact hlast
    have hwcount : ((freshEma req p).run bars).bar_count = bars.length := by
      rw [indicator_run_bar_count, hbc0]
      omega
    have hw : ((freshEma req p).run bars).is_warmed_up = true := by
      simp only [Indicator.is_warmed_up, hfull, Indicator.warmup_period, hwcount]
      rw [decide_eq_true_eq, hlen]
    have harith : bars.dropLast.foldl (fun a b => a + b.close) 0 +
        (bars.getLast hne).close = (bars.map (fun b => b.close)).sum := by
      rw [foldl_add_close_eq]
      conv_rhs => rw [← hsplit]
      simp
    simp only [Indicator.value, hfull]
    rw [if_pos hw, harith]
  · intro bars b e hval
    obtain ⟨v', seed', hst⟩ :=
      ema_run_family p (2 / ((p : ℚ) + 1)) bars _ none 0 hstate0
    by_cases hwm : ((freshEma req p).run bars).is_warmed_up = true
    · simp only [Indicator.value, hst] at hval
      rw [if_pos hwm] at hval
      have hv' : v' = some e := by
        simpa only [Value.scalar.injEq] using hval
      subst hv'
      have hupd := ema_update_post _ p (2 / ((p : ℚ) + 1)) e seed' hst b
      have hfull2 : ((freshEma req p).run (bars ++ [b])).state =
          .ema ⟨p, 2 / ((p : ℚ) + 1),
            some ((b.close - e) * (2 / ((p : ℚ) + 1)) + e), seed'⟩ := by
        rw [indicator_run_append, Indicator.run, Indicator.run]
        exact hupd
      have hple2 : p ≤ (((freshEma req p).run bars).bar_count : ℤ) := by
        have h := hwm
        simp only [Indicator.is_warmed_up, hst, Indicator.warmup_period] at h
        rw [decide_eq_true_eq] at h
        exact h
      have hw2 : ((freshEma req p).run (bars ++ [b])).is_warmed_up = true := by
        simp only [Indicator.is_warmed_up, hfull2, Indicator.warmup_period]
        rw [decide_eq_true_eq, indicator_run_bar_count]
        rw [indicator_run_bar_count] at hple2
        simp only [List.length_append, List.length_cons, List.length_nil]
        push_cast at hple2 ⊢
        omega
      simp only [Indicator.value, hfull2]
      rw [if_pos hw2]
    · simp only [Indicator.value, hst] at hval
      rw [if_neg hwm] at hval
      exact absurd hval (by simp)

/-- The EMA(3) registration of scenario S1. -/
def c6exReq : IndicatorRequirement :=
  { id := "e", type := "ema", timeframe := "1m", params := [("period", 3)] }

/-- The indicator instance `mkEMAIndicator c6exReq` produces. -/
def c6exInd : Indicator :=
  { requirement := c6exReq, bar_count := 0, last_bar_ts := none,
    state := .ema { period := 3, alpha := 2 / ((3 : ℚ) + 1), ema := none,
                    seedSum := 0 } }

/-- Bars with closes 10, 20, 30, 40 on 1m. -/
def c6exBars : List IndicatorBar :=
  [{ timestamp := 0, open_ := 10, high := 10, low := 10, close := 10, volume := 0, timeframe := "1m" },
   { timestamp := 1, open_ := 20, high := 20, low := 20, close := 20, volume := 0, timeframe := "1m" },
   { timestamp := 2, open_ := 30, high := 30, low := 30, close := 30, volume := 0, timeframe := "1m" },
   { timestamp := 3, open_ := 40, high := 40, low := 40, close := 40, volume := 0, timeframe := "1m" }]

/-- C6, witness: scenario S1 — EMA(3) on closes [10, 20, 30, 40] is null
before bar 3, 20 after bar 3 and 30 after bar 4. -/
theorem c6_ema_seed_and_recurrence_witness :
    mkEMAIndicator c6exReq = .ok c6exInd ∧
    (c6exInd.run (c6exBars.take 2)).value = .scalar none ∧
    (c6exInd.run (c6exBars.take 3)).value = .scalar (some 20) ∧
    (c6exInd.run c6exBars).value = .scalar (some 30) := by
  have hreg : mkEMAIndicator c6exReq = .ok c6exInd := by
    simp only [mkEMAIndicator, c6exReq, c6exInd]
    norm_num [pyGet, pyInt]
  have h := c6_ema_seed_and_recurrence c6exReq c6exInd 3
    (by norm_num [pyGet, pyInt, c6exReq]) hreg
  have h3 : (c6exInd.run (c6exBars.take 3)).value = .scalar (some 20) := by
    have := h.2.1 (c6exBars.take 3) (by decide)
    rw [this]
    norm_num [c6exBars]
  refine ⟨hreg, h.1 (c6exBars.take 2) (by decide), h3, ?_⟩
  have h4 := h.2.2 (c6exBars.take 3)
    { timestamp := 3, open_ := 40, high := 40, low := 40, close := 40,
      volume := 0, timeframe := "1m" } 20 h3
  rw [show c6exBars = c6exBars.take 3 ++
    [{ timestamp := 3, open_ := 40, high := 40, low := 40, close := 40,
       volume := 0, timeframe := "1m" }] from rfl, h4]
  norm_num

/-- The MACD(1, 2, 1) registration of the warmup counterexample. -/
def c7exReq : IndicatorRequirement :=
  { id := "m", type := "macd", timeframe := "1m",
    params := [("fast", 1), ("slow", 2), ("signal", 1)] }

/-- The fresh MACD(1, 2, 1) instance. -/
def c7exInd : Indicator := freshMacd c7exReq 1 2 1

/-- Two 1m bars with closes 1 and 2. -/
def c7exBars : List IndicatorBar :=
  [{ timestamp := 0, open_ := 1, high := 1, low := 1, close := 1, volume := 0, timeframe := "1m" },
   { timestamp := 1, open_ := 2, high := 2, low := 2, close := 2, volume := 0, timeframe := "1m" }]

/-- C7, counterexample. For MACD the biconditional
`is_warmed_up ↔ bar_count ≥ warmup_period` fails: a MACD(fast=1, slow=2,
signal=1) is warmed up after 2 bars although its `warmup_period` is
`slow + signal = 3` — the signal EMA receives its first input on the bar
that seeds the slow EMA, so readiness arrives one bar early. -/
theorem c7_macd_warmup_off_by_one :
    mkMACDIndicator c7exReq = .ok c7exInd ∧
    (c7exInd.run c7exBars).warmup_period = 3 ∧
    (c7exInd.run c7exBars).bar_count = 2 ∧
    (c7exInd.run c7exBars).is_warmed_up = true ∧
    ¬((c7exInd.run c7exBars).warmup_period ≤
      ((c7exInd.run c7exBars).bar_count : ℤ)) := by
  refine ⟨rfl, rfl, rfl, rfl, ?_⟩
  intro h
  have h2 : (c7exInd.run c7exBars).warmup_period = 3 := rfl
  have h3 : (c7exInd.run c7exBars).bar_count = 2 := rfl
  rw [h2, h3] at h
  exact absurd h (by decide)

/-- C7, amended: `is_warmed_up` coincides with `bar_count ≥ warmup_period`
for EMA (warmup = period), RSI (warmup = period + 1) and Bollinger (warmup =
period); for MACD `warmup_period` reports `slow + signal` but `is_warmed_up`
becomes true one bar earlier, from `bar_count ≥ slow + signal − 1` on. In
every family, once `is_warmed_up` is true, `value()` is non-null in all
fields. -/
theorem c7_warmup_characterization :
    (∀ (req : IndicatorRequirement) (ind0 : Indicator) (bars : List IndicatorBar),
      mkEMAIndicator req = .ok ind0 →
      (ind0.run bars).warmup_period = pyInt (pyGet req.params "period" 0) ∧
      ((ind0.run bars).is_warmed_up = true ↔
        (ind0.run bars).warmup_period ≤ ((ind0.run bars).bar_count : ℤ)) ∧
      ((ind0.run bars).is_warmed_up = true →
        ∃ v : ℚ, (ind0.run bars).value = .scalar (some v))) ∧
    (∀ (req : IndicatorRequirement) (ind0 : Indicator) (bars : List IndicatorBar),
      mkRSIIndicator req = .ok ind0 →
      (ind0.run bars).warmup_period = pyInt (pyGet req.params "period" 0) + 1 ∧
      ((ind0.run bars).is_warmed_up = true ↔
        (ind0.run bars).warmup_period ≤ ((ind0.run bars).bar_count : ℤ)) ∧
      ((ind0.run bars).is_warmed_up = true →
        ∃ v : ℚ, (ind0.run bars).value = .scalar (some v))) ∧
    (∀ (req : IndicatorRequirement) (ind0 : Indicator) (bars : List IndicatorBar),
      mkBollingerIndicator req = .ok ind0 →
      (ind0.run bars).warmup_period = pyInt (pyGet req.params "period" 0) ∧
      ((ind0.run bars).is_warmed_up = true ↔
        (ind0.run bars).warmup_period ≤ ((ind0.run bars).bar_count : ℤ)) ∧
      ((ind0.run bars).is_warmed_up = true →
        ∃ bv : BollValue, (ind0.run bars).value = .bollV bv ∧
          bv.upper.isSome = true ∧ bv.middle.isSome = true ∧
          bv.lower.isSome = true ∧ bv.bandwidth.isSome = true)) ∧
    (∀ (req : IndicatorRequirement) (ind0 : Indicator) (bars : List IndicatorBar),
      mkMACDIndicator req = .ok ind0 →
      (ind0.run bars).warmup_period =
        pyInt (pyGet req.params "slow" 26) + pyInt (pyGet req.params "signal" 9) ∧
      ((ind0.run bars).is_warmed_up = true ↔
        pyInt (pyGet req.params "slow" 26) + pyInt (pyGet req.params "signal" 9)
          - 1 ≤ ((ind0.run bars).bar_count : ℤ)) ∧
      ((ind0.run bars).is_warmed_up = true →
        ∃ mv : MacdValue, (ind0.run bars).value = .macdV mv ∧
          mv.ema_fast.isSome = true ∧ mv.ema_slow.isSome = true ∧
          mv.diff.isSome = true ∧ mv.dea.isSome = true ∧
          mv.macd.isSome = true ∧ mv.fast_line.isSome = true ∧
          mv.signal_line.isSome = true ∧ mv.histogram.isSome = true)) := by
  refine ⟨?_, ?_, ?_, ?_⟩
  · -- EMA
    intro req ind0 bars hreg
    simp only [mkEMAIndicator] at hreg
    by_cases hple : pyInt (pyGet req.params "period" 0) ≤ 0
    · rw [if_pos hple] at hreg
      exact absurd hreg (by simp)
    rw [if_neg hple] at hreg
    have hind : ind0 = freshEma req (pyInt (pyGet req.params "period" 0)) :=
      (Except.ok.inj hreg).symm
    subst hind
    obtain ⟨v', seed', hst⟩ := ema_run_family (pyInt (pyGet req.params "period" 0))
      (2 / ((pyInt (pyGet req.params "period" 0) : ℚ) + 1)) bars
      (freshEma req (pyInt (pyGet req.params "period" 0))) none 0 rfl
    refine ⟨by simp only [Indicator.warmup_period, hst], ?_, ?_⟩
    · simp only [Indicator.is_warmed_up, hst, Indicator.warmup_period,
        decide_eq_true_eq]
    · intro hw
      have hcnt : ((freshEma req (pyInt (pyGet req.params "period" 0))).run
          bars).bar_count = bars.length := by
        rw [indicator_run_bar_count]
        simp [freshEma]
      have hlen : pyInt (pyGet req.params "period" 0) ≤ (bars.length : ℤ) := by
        have h := hw
        simp only [Indicator.is_warmed_up, hst, Indicator.warmup_period,
          decide_eq_true_eq, hcnt] at h
        exact h
      obtain ⟨e, seed, hst2⟩ := ema_fresh_run_some
        (pyInt (pyGet req.params "period" 0)) (by omega) req bars hlen
      refine ⟨e, ?_⟩
      simp only [Indicator.value, hst2]
      rw [if_pos hw]
  · -- RSI
    intro req ind0 bars hreg
    simp only [mkRSIIndicator] at hreg
    by_cases hple : pyInt (pyGet req.params "period" 0) ≤ 0
    · rw [if_pos hple] at hreg
      exact absurd hreg (by simp)
    rw [if_neg hple] at hreg
    have hind : ind0 = freshRsi req (pyInt (pyGet req.params "period" 0)) :=
      (Except.ok.inj hreg).symm
    subst hind
    have hbase : RsiInv (pyInt (pyGet req.params "period" 0)) 0
        (freshRsiSt (pyInt (pyGet req.params "period" 0))) := by
      refine ⟨rfl, by simp [freshRsiSt], rfl, ?_, ?_⟩ <;>
        · simp only [freshRsiSt, Option.isSome_none]
          constructor
          · intro hcontra
            exact absurd hcontra (by simp)
          · intro hle
            exfalso
            omega
    obtain ⟨st', hst', hinv'⟩ := rsi_run_inv (pyInt (pyGet req.params "period" 0))
      (by omega) bars (freshRsi req (pyInt (pyGet req.params "period" 0)))
      (freshRsiSt (pyInt (pyGet req.params "period" 0))) rfl hbase
    obtain ⟨hi1, hi2, hi3, hi4, hi5⟩ := hinv'
    refine ⟨by simp only [Indicator.warmup_period, hst', hi1], ?_, ?_⟩
    · simp only [Indicator.is_warmed_up, hst', Indicator.warmup_period, hi1,
        Bool.and_eq_true]
      constructor
      · rintro ⟨hg, _⟩
        exact hi4.mp hg
      · intro hle
        exact ⟨hi4.mpr hle, hi5.mpr hle⟩
    · intro hw
      simp only [Indicator.is_warmed_up, hst', Bool.and_eq_true] at hw
      obtain ⟨ag, hag⟩ := Option.isSome_iff_exists.mp hw.1
      obtain ⟨al, hal⟩ := Option.isSome_iff_exists.mp hw.2
      simp only [Indicator.value, hst', hag, hal]
      by_cases hz : al = 0
      · rw [if_pos hz]
        exact ⟨100, rfl⟩
      · rw [if_neg hz]
        exact ⟨_, rfl⟩
  · -- Bollinger
    intro req ind0 bars hreg
    simp only [mkBollingerIndicator] at hreg
    by_cases hple : pyInt (pyGet req.params "period" 0) ≤ 0
    · rw [if_pos hple] at hreg
      exact absurd hreg (by simp)
    rw [if_neg hple] at hreg
    have hind : ind0 = freshBoll req (pyInt (pyGet req.params "period" 0))
        (pyGet req.params "std_dev" 2) := (Except.ok.inj hreg).symm
    subst hind
    have hbase : BollInv (pyInt (pyGet req.params "period" 0)) 0
        (freshBollSt (pyInt (pyGet req.params "period" 0))
          (pyGet req.params "std_dev" 2)) := by
      refine ⟨rfl, by intro _; rfl, ?_⟩
      intro hle
      exact absurd hle (by omega)
    obtain ⟨st', hst', hinv'⟩ := boll_run_inv (pyInt (pyGet req.params "period" 0))
      (by omega) bars
      (freshBoll req (pyInt (pyGet req.params "period" 0))
        (pyGet req.params "std_dev" 2))
      (freshBollSt (pyInt (pyGet req.params "period" 0))
        (pyGet req.params "std_dev" 2)) rfl hbase
    obtain ⟨hb1, hb2, hb3⟩ := hinv'
    refine ⟨by simp only [Indicator.warmup_period, hst', hb1], ?_, ?_⟩
    · simp only [Indicator.is_warmed_up, hst', Indicator.warmup_period,
        decide_eq_true_eq]
    · intro hw
      have hcnt2 : pyInt (pyGet req.params "period" 0) ≤
          (((freshBoll req (pyInt (pyGet req.params "period" 0))
            (pyGet req.params "std_dev" 2)).run bars).bar_count : ℤ) := by
        have h := hw
        simp only [Indicator.is_warmed_up, hst', Indicator.warmup_period, hb1,
          decide_eq_true_eq] at h
        exact h
      have hlenp := hb3 hcnt2
      simp only [Indicator.value, hst']
      rw [if_neg (by rw [hb1]; omega)]
      exact ⟨_, rfl, rfl, rfl, rfl, rfl⟩
  · -- MACD
    intro req ind0 bars hreg
    by_cases hbad : pyInt (pyGet req.params "fast" 12) ≤ 0 ∨
        pyInt (pyGet req.params "slow" 26) ≤ 0 ∨
        pyInt (pyGet req.params "signal" 9) ≤ 0
    · simp only [mkMACDIndicator] at hreg
      rw [if_pos hbad] at hreg
      exact absurd hreg (by simp)
    by_cases hord : pyInt (pyGet req.params "fast" 12) ≥
        pyInt (pyGet req.params "slow" 26)
    · simp only [mkMACDIndicator] at hreg
      rw [if_neg hbad, if_pos hord] at hreg
      exact absurd hreg (by simp)
    push_neg at hbad
    obtain ⟨hb1, hb2, hb3⟩ := hbad
    have hok := mkMACD_ok req (pyInt (pyGet req.params "fast" 12))
      (pyInt (pyGet req.params "slow" 26)) (pyInt (pyGet req.params "signal" 9))
      (by omega) (by omega) (by omega) (by omega) rfl rfl rfl
    have hind : ind0 = freshMacd req (pyInt (pyGet req.params "fast" 12))
        (pyInt (pyGet req.params "slow" 26))
        (pyInt (pyGet req.params "signal" 9)) :=
      (Except.ok.inj (hok.symm.trans hreg)).symm
    subst hind
    have hbase : MacdInv (pyInt (pyGet req.params "fast" 12))
        (pyInt (pyGet req.params "slow" 26)) (pyInt (pyGet req.params "signal" 9))
        0
        (freshMacdSt (pyInt (pyGet req.params "fast" 12))
          (pyInt (pyGet req.params "slow" 26))
          (pyInt (pyGet req.params "signal" 9))) := by
      refine ⟨rfl, rfl, rfl, rfl, rfl, rfl, rfl, rfl,
        by intro hcontra; exfalso; omega, by intro _; rfl, ?_, ?_, ?_, ?_, ?_⟩ <;>
        · simp only [freshMacdSt, Option.isSome_none]
          constructor
          · intro hcontra
            exact absurd hcontra (by simp)
          · intro hle
            exfalso
            omega
    obtain ⟨st', hst', hinv'⟩ := macd_run_inv (pyInt (pyGet req.params "fast" 12))
      (pyInt (pyGet req.params "slow" 26)) (pyInt (pyGet req.params "signal" 9))
      (by omega) (by omega) (by omega) (by omega) bars
      (freshMacd req (pyInt (pyGet req.params "fast" 12))
        (pyInt (pyGet req.params "slow" 26)) (pyInt (pyGet req.params "signal" 9)))
      (freshMacdSt (pyInt (pyGet req.params "fast" 12))
        (pyInt (pyGet req.params "slow" 26)) (pyInt (pyGet req.params "signal" 9)))
      rfl hbase
    obtain ⟨m1, m2, m3, m4, m5, m6, m7, m8, m9a, m9b, m10, m11, m12, m13, m14⟩ := hinv'
    refine ⟨by simp only [Indicator.warmup_period, hst', m2, m3], ?_, ?_⟩
    · simp only [Indicator.is_warmed_up, hst']
      exact m12
    · intro hw
      simp only [Indicator.is_warmed_up, hst'] at hw
      have hn := m12.mp hw
      obtain ⟨fv, hfv⟩ := Option.isSome_iff_exists.mp (m10.mpr (by omega))
      obtain ⟨sv, hsv⟩ := Option.isSome_iff_exists.mp (m11.mpr (by omega))
      obtain ⟨gv, hgv⟩ := Option.isSome_iff_exists.mp hw
      obtain ⟨dv, hdv⟩ := Option.isSome_iff_exists.mp (m13.mpr (by omega))
      obtain ⟨mcv, hmcv⟩ := Option.isSome_iff_exists.mp (m14.mpr (by omega))
      simp only [Indicator.value, hst', hfv, hsv, hgv, hdv, hmcv,
        Option.isSome_some, Bool.and_self, if_true]
      exact ⟨_, rfl, rfl, rfl, rfl, rfl, rfl, rfl, rfl, rfl⟩

/-- An EMA(1) registration for the warmup witness. -/
def c7wEmaReq : IndicatorRequirement :=
  { id := "e", type := "ema", timeframe := "1m", params := [("period", 1)] }

/-- The fresh EMA(1) instance. -/
def c7wEmaInd : Indicator := freshEma c7wEmaReq 1

/-- An RSI(1) registration for the warmup witness. -/
def c7wRsiReq : IndicatorRequirement :=
  { id := "r", type := "rsi", timeframe := "1m", params := [("period", 1)] }

/-- The fresh RSI(1) instance. -/
def c7wRsiInd : Indicator := freshRsi c7wRsiReq 1

/-- A Bollinger(1) registration for the warmup witness. -/
def c7wBollReq : IndicatorRequirement :=
  { id := "b", type := "boll", timeframe := "1m", params := [("period", 1)] }

/-- The fresh Bollinger(1) instance (default std_dev 2). -/
def c7wBollInd : Indicator := freshBoll c7wBollReq 1 2

/-- C7, witness for the amended theorem: all four family clauses
instantiated at concrete registrations run over the two bars of
`c7exBars`. -/
theorem c7_warmup_characterization_witness :
    ((c7wEmaInd.run c7exBars).is_warmed_up = true ↔
      (c7wEmaInd.run c7exBars).warmup_period ≤
        ((c7wEmaInd.run c7exBars).bar_count : ℤ)) ∧
    ((c7wRsiInd.run c7exBars).is_warmed_up = true ↔
      (c7wRsiInd.run c7exBars).warmup_period ≤
        ((c7wRsiInd.run c7exBars).bar_count : ℤ)) ∧
    ((c7wBollInd.run c7exBars).is_warmed_up = true ↔
      (c7wBollInd.run c7exBars).warmup_period ≤
        ((c7wBollInd.run c7exBars).bar_count : ℤ)) ∧
    ((c7exInd.run c7exBars).is_warmed_up = true ↔
      pyInt (pyGet c7exReq.params "slow" 26) +
        pyInt (pyGet c7exReq.params "signal" 9) - 1 ≤
        ((c7exInd.run c7exBars).bar_count : ℤ)) :=
  ⟨(c7_warmup_characterization.1 c7wEmaReq c7wEmaInd c7exBars rfl).2.1,
   (c7_warmup_characterization.2.1 c7wRsiReq c7wRsiInd c7exBars rfl).2.1,
   (c7_warmup_characterization.2.2.1 c7wBollReq c7wBollInd c7exBars rfl).2.1,
   (c7_warmup_characterization.2.2.2 c7exReq c7exInd c7exBars rfl).2.1⟩

/-- C8, counterexample. The claim says the conversion has an `M → 2592000 s`
row, in particular that `"1M"` converts to 2592000 seconds. In the code
`_tf_to_seconds` lowercases its input first and has no month branch, so
`"1M"` becomes `"1m"` and converts to 60 seconds. -/
theorem c8_one_month_is_sixty_seconds :
    tfToSeconds "1M" = .ok 60 ∧ (Except.ok 60 : Except String ℤ) ≠ .ok 2592000 := by
  constructor
  · rfl
  · intro h
    exact absurd (Except.ok.inj h) (by decide)

/-- C8, amended: on the spec's canonical timeframe set, the `m`, `h`, `d`
and `w` rows of the unit table hold (`m→60`, `h→3600`, `d→86400`,
`w→604800` seconds per unit); there is no `M` (month) unit at all — the
input is lowercased first, so `"1M"` is read as one minute and yields 60
seconds rather than 2592000. -/
theorem c8_tf_to_seconds_table :
    tfToSeconds "1m" = .ok 60 ∧ tfToSeconds "3m" = .ok 180 ∧
    tfToSeconds "5m" = .ok 300 ∧ tfToSeconds "15m" = .ok 900 ∧
    tfToSeconds "30m" = .ok 1800 ∧ tfToSeconds "1h" = .ok 3600 ∧
    tfToSeconds "2h" = .ok 7200 ∧ tfToSeconds "4h" = .ok 14400 ∧
    tfToSeconds "6h" = .ok 21600 ∧ tfToSeconds "8h" = .ok 28800 ∧
    tfToSeconds "12h" = .ok 43200 ∧ tfToSeconds "1d" = .ok 86400 ∧
    tfToSeconds "3d" = .ok 259200 ∧ tfToSeconds "1w" = .ok 604800 ∧
    tfToSeconds "1M" = .ok 60 :=
  ⟨rfl, rfl, rfl, rfl, rfl, rfl, rfl, rfl, rfl, rfl, rfl, rfl, rfl, rfl, rfl⟩

/-- C9, counterexample. The claim says every non-positive numeric parameter
is rejected at construction, "including Bollinger's std_dev". The code reads
`std_dev` without any validation: construction with `std_dev = -1` succeeds
and stores the negative multiplier. -/
theorem c9_negative_std_dev_accepted :
    (buildIndicator c9exReq).isOk = true ∧
    buildIndicator c9exReq =
      .ok { requirement := c9exReq, bar_count := 0, last_bar_ts := none,
            state := .boll { period := 2, stdDev := -1, window := [],
                             sum := 0, sumSq := 0 } } := by
  constructor
  · rfl
  · rfl

/-- C9, amended: every period-like parameter is validated — EMA, RSI and
Bollinger reject a non-positive `period`, MACD rejects non-positive
`fast`/`slow`/`signal` and `fast ≥ slow` — but Bollinger's `std_dev` is
accepted without any validation: for every rational `sd` (non-positive
included) construction succeeds and stores `sd` unchanged. -/
theorem c9_constructor_validation (req : IndicatorRequirement) :
    (pyInt (pyGet req.params "period" 0) ≤ 0 →
      mkEMAIndicator req = .error "EMA period must be positive" ∧
      mkRSIIndicator req = .error "RSI period must be positive" ∧
      mkBollingerIndicator req = .error "Bollinger period must be positive") ∧
    (pyInt (pyGet req.params "fast" 12) ≤ 0 ∨ pyInt (pyGet req.params "slow" 26) ≤ 0 ∨
        pyInt (pyGet req.params "signal" 9) ≤ 0 →
      mkMACDIndicator req = .error "MACD periods must be positive") ∧
    (0 < pyInt (pyGet req.params "fast" 12) → 0 < pyInt (pyGet req.params "slow" 26) →
        0 < pyInt (pyGet req.params "signal" 9) →
        pyInt (pyGet req.params "slow" 26) ≤ pyInt (pyGet req.params "fast" 12) →
      mkMACDIndicator req = .error "MACD fast period must be smaller than slow period") ∧
    (0 < pyInt (pyGet req.params "period" 0) →
      mkBollingerIndicator req =
        .ok { requirement := req, bar_count := 0, last_bar_ts := none,
              state := .boll { period := pyInt (pyGet req.params "period" 0),
                               stdDev := pyGet req.params "std_dev" 2,
                               window := [], sum := 0, sumSq := 0 } }) := by
  refine ⟨fun h => ⟨?_, ?_, ?_⟩, fun h => ?_, fun hf hs hg hord => ?_, fun h => ?_⟩
  · simp [mkEMAIndicator, if_pos h]
  · simp [mkRSIIndicator, if_pos h]
  · simp [mkBollingerIndicator, if_pos h]
  · simp only [mkMACDIndicator]
    rw [if_pos h]
  · simp only [mkMACDIndicator]
    rw [if_neg (by omega), if_pos (by omega)]
  · simp only [mkBollingerIndicator]
    rw [if_neg (by omega : ¬ pyInt (pyGet req.params "period" 0) ≤ 0)]

/-- C9, witness for the amended theorem at concrete inputs: a requirement
with period −3, fast 5, slow 5, signal 2. -/
theorem c9_constructor_validation_witness :
    mkEMAIndicator { id := "x", type := "ema", timeframe := "1m",
                     params := [("period", -3)] } =
      .error "EMA period must be positive" :=
  ((c9_constructor_validation
      { id := "x", type := "ema", timeframe := "1m",
        params := [("period", -3)] }).1 (by decide)).1

/-- C4, confirmed: `add` returns at most one bar by construction (its result
is a single `Option`), and under a pending partial aggregate of an earlier
period: if the incoming bar is not the last bar of its own period, `add`
returns exactly the prior period's aggregate (`_create_output_bar` of the
pre-call state) and starts aggregating the new period with this single bar;
if the incoming bar closes its own period, the prior flush is superseded and
only the current period's (single-bar) aggregate is returned. -/
theorem c4_emission_discipline (r : OhlcvResampler) (bar : IndicatorBar)
    (cur : ℤ) (hcur : r.current_period_start = some cur)
    (hnew : r.getPeriodStart bar.timestamp ≠ cur)
    (ho : r.pending_open.isSome = true) (hh : r.pending_high.isSome = true)
    (hl : r.pending_low.isSome = true) :
    (r.add bar).2.isSome = true ∧
    (r.isPeriodLastBar bar.timestamp = false →
      (r.add bar).2 = r.createOutputBar ∧ r.createOutputBar.isSome = true ∧
      (r.add bar).1.current_period_start = some (r.getPeriodStart bar.timestamp) ∧
      (r.add bar).1.count = 1 ∧
      (r.add bar).1.pending_open = some bar.open_ ∧
      (r.add bar).1.pending_high = some bar.high ∧
      (r.add bar).1.pending_low = some bar.low ∧
      (r.add bar).1.pending_close = bar.close ∧
      (r.add bar).1.pending_volume = bar.volume) ∧
    (r.isPeriodLastBar bar.timestamp = true →
      (r.add bar).2 =
        some { timestamp := r.getPeriodStart bar.timestamp, open_ := bar.open_,
               high := bar.high, low := bar.low, close := bar.close,
               volume := bar.volume, timeframe := r.target_tf } ∧
      (r.add bar).1.pending_open = none) := by
  obtain ⟨po, hpo⟩ := Option.isSome_iff_exists.mp ho
  obtain ⟨ph, hph⟩ := Option.isSome_iff_exists.mp hh
  obtain ⟨pl, hpl⟩ := Option.isSome_iff_exists.mp hl
  obtain ⟨stf, ttf, rat, sms, tms, cps, po0, ph0, pl0, pc0, pv0, pts0, cnt0⟩ := r
  simp only [OhlcvResampler.getPeriodStart, OhlcvResampler.isPeriodLastBar] at *
  subst hcur hpo hph hpl
  rcases hb : decide (pyFloorDiv bar.timestamp tms * tms + tms ≤ bar.timestamp + sms)
    with _ | _
  · refine ⟨?_, fun _ => ?_, fun hcontra => by simp [hb] at hcontra⟩ <;>
      simp [OhlcvResampler.add, OhlcvResampler.createOutputBar,
        OhlcvResampler.resetState, OhlcvResampler.getPeriodStart,
        OhlcvResampler.isPeriodLastBar, hnew, hb]
  · refine ⟨?_, fun hcontra => by simp [hb] at hcontra, fun _ => ?_⟩ <;>
      simp [OhlcvResampler.add, OhlcvResampler.createOutputBar,
        OhlcvResampler.resetState, OhlcvResampler.getPeriodStart,
        OhlcvResampler.isPeriodLastBar, hnew, hb]

/-- C4, witness: the emission discipline instantiated at the concrete 1m→2m
resampler state, once with the non-closing bar at 120000 and once with the
period-closing bar at 180000. -/
theorem c4_emission_discipline_witness :
    ((c4exState.add c4exBarA).2 = c4exState.createOutputBar ∧
      (c4exState.add c4exBarA).1.count = 1) ∧
    (c4exState.add c4exBarB).2 =
      some { timestamp := 120000, open_ := 5, high := 6, low := 4, close := 5,
             volume := 1, timeframe := "2m" } := by
  have hA := c4_emission_discipline c4exState c4exBarA 0 rfl (by decide) rfl rfl rfl
  have hB := c4_emission_discipline c4exState c4exBarB 0 rfl (by decide) rfl rfl rfl
  refine ⟨⟨(hA.2.1 (by decide)).1, (hA.2.1 (by decide)).2.2.2.1⟩, ?_⟩
  have := (hB.2.2 (by decide)).1
  simpa [c4exState, c4exBarB, OhlcvResampler.getPeriodStart, pyFloorDiv] using this

/-- C5, confirmed: for any integer-ratio source/target pair (target period
`T = ratio * S` for source period `S > 0`) and any gap-free source stream of
exactly `ratio` bars filling the period-aligned target period starting at
`ps`, feeding the stream into a fresh resampler emits exactly one bar, on the
final `add` call: its timestamp is the period start, its timeframe the target
timeframe, its open the first bar's open, its close the last bar's close, its
high the maximum of the source highs, its low the minimum of the source lows
and its volume the sum of the source volumes. -/
theorem c5_resample_conservation (stf ttf : String) (rat S T ps : ℤ)
    (b0 : IndicatorBar) (rest : List IndicatorBar)
    (hS : 0 < S) (hT : T = rat * S) (hps : ps % T = 0)
    (hlen : (1 : ℤ) + rest.length = rat)
    (hts : ∀ i (h : i < (b0 :: rest).length),
      ((b0 :: rest).get ⟨i, h⟩).timestamp = ps + i * S) :
    OhlcvResampler.addMany
      { source_tf := stf, target_tf := ttf, ratio := rat,
        source_seconds_ms := S, target_seconds_ms := T,
        current_period_start := none, pending_open := none, pending_high := none,
        pending_low := none, pending_close := 0, pending_volume := 0,
        pending_ts := 0, count := 0 } (b0 :: rest) =
    ({ source_tf := stf, target_tf := ttf, ratio := rat,
       source_seconds_ms := S, target_seconds_ms := T,
       current_period_start := none, pending_open := none, pending_high := none,
       pending_low := none, pending_close := 0, pending_volume := 0,
       pending_ts := ps, count := 0 },
     [{ timestamp := ps, open_ := b0.open_,
        high := (rest.map (fun b => b.high)).foldl max b0.high,
        low := (rest.map (fun b => b.low)).foldl min b0.low,
        close := ((b0 :: rest).getLast (List.cons_ne_nil b0 rest)).close,
        volume := ((b0 :: rest).map (fun b => b.volume)).sum,
        timeframe := ttf }]) := by
  have htsb0 : b0.timestamp = ps := by
    have h := hts 0 (by simp)
    simpa using h
  have hTpos : 0 < T := by
    have hrest : (0 : ℤ) ≤ rest.length := by positivity
    rw [hT]
    exact mul_pos (by omega) hS
  have hbps0 : OhlcvResampler.getPeriodStart
      { source_tf := stf, target_tf := ttf, ratio := rat,
        source_seconds_ms := S, target_seconds_ms := T,
        current_period_start := none, pending_open := none, pending_high := none,
        pending_low := none, pending_close := 0, pending_volume := 0,
        pending_ts := 0, count := 0 } b0.timestamp = ps := by
    simp only [OhlcvResampler.getPeriodStart, pyFloorDiv]
    rw [htsb0]
    have h := fdiv_period_start T ps 0 hTpos hps le_rfl hTpos
    simpa using h
  cases rest with
  | nil =>
    have hrat1 : rat = 1 := by
      simp only [List.length_nil] at hlen
      push_cast at hlen
      omega
    have hlast : OhlcvResampler.isPeriodLastBar
        { source_tf := stf, target_tf := ttf, ratio := rat,
          source_seconds_ms := S, target_seconds_ms := T,
          current_period_start := none, pending_open := none,
          pending_high := none, pending_low := none, pending_close := 0,
          pending_volume := 0, pending_ts := 0,
          count := 0 } b0.timestamp = true := by
      simp only [OhlcvResampler.isPeriodLastBar]
      rw [decide_eq_true_eq, hbps0, htsb0, hT, hrat1, one_mul]
    rw [OhlcvResampler.addMany, add_fresh_close _ b0 rfl rfl rfl rfl hlast,
      OhlcvResampler.addMany]
    simp [hbps0]
  | cons b1 rest2 =>
    have hrat2 : 2 ≤ rat := by
      simp only [List.length_cons] at hlen
      push_cast at hlen
      have hrest : (0 : ℤ) ≤ rest2.length := by positivity
      omega
    have hlast : OhlcvResampler.isPeriodLastBar
        { source_tf := stf, target_tf := ttf, ratio := rat,
          source_seconds_ms := S, target_seconds_ms := T,
          current_period_start := none, pending_open := none,
          pending_high := none, pending_low := none, pending_close := 0,
          pending_volume := 0, pending_ts := 0,
          count := 0 } b0.timestamp = false := by
      simp only [OhlcvResampler.isPeriodLastBar]
      rw [decide_eq_false_iff_not, hbps0, htsb0, hT]
      have hstrict : 1 * S < rat * S :=
        mul_lt_mul_of_pos_right (by omega) hS
      have harith : 1 * S = S := by ring
      omega
    rw [OhlcvResampler.addMany, add_fresh_continue _ b0 rfl rfl rfl rfl hlast,
      hbps0]
    have hrec := addMany_fill stf ttf rat S T ps hS hT hps (b1 :: rest2) 1
      b0.open_ b0.high b0.low b0.close (0 + b0.volume) (0 + 1)
      (by simp) le_rfl
      (by simp only [List.length_cons] at hlen ⊢; push_cast at hlen ⊢; omega)
      (fun i h => by
        have h2 := hts (i + 1) (by simp only [List.length_cons] at h ⊢; omega)
        simp only [List.get_cons_succ] at h2
        rw [h2]
        push_cast
        ring)
    rw [hrec]
    simp only [List.foldl_map]
    simp only [List.getLast_cons (List.cons_ne_nil b1 rest2), List.map_cons,
      List.sum_cons, zero_add, foldl_add_volume_eq, List.nil_append,
      foldl_close_getLast (b1 :: rest2) b0.close (List.cons_ne_nil b1 rest2)]

/-- C5, witness: the conservation theorem instantiated at the concrete
1m→5m resampler on the S5 inputs: the single emitted bar is
timestamp 0, open 10, high 15, low 9, close 14, volume 5, timeframe "5m",
and `mkOhlcvResampler` indeed builds exactly that fresh resampler. -/
theorem c5_resample_conservation_witness :
    mkOhlcvResampler "1m" "5m" 5 = .ok c5exResampler ∧
    c5exResampler.addMany c5exBars =
      ({ c5exResampler with pending_ts := 0 },
       [{ timestamp := 0, open_ := 10, high := 15, low := 9, close := 14,
          volume := 5, timeframe := "5m" }]) := by
  constructor
  · rfl
  · have h := c5_resample_conservation "1m" "5m" 5 60000 300000 0
      { timestamp := 0, open_ := 10, high := 11, low := 9, close := 10,
        volume := 1, timeframe := "1m" }
      [{ timestamp := 60000, open_ := 11, high := 12, low := 10, close := 11, volume := 1, timeframe := "1m" },
       { timestamp := 120000, open_ := 12, high := 13, low := 11, close := 12, volume := 1, timeframe := "1m" },
       { timestamp := 180000, open_ := 13, high := 14, low := 12, close := 13, volume := 1, timeframe := "1m" },
       { timestamp := 240000, open_ := 14, high := 15, low := 13, close := 14, volume := 1, timeframe := "1m" }]
      (by decide) (by decide) (by decide) (by decide)
      (by
        intro i h
        have h5 : i < 5 := by simpa using h
        interval_cases i <;> rfl)
    rw [show c5exResampler.addMany c5exBars =
        OhlcvResampler.addMany
          { source_tf := "1m", target_tf := "5m", ratio := 5,
            source_seconds_ms := 60000, target_seconds_ms := 300000,
            current_period_start := none, pending_open := none,
            pending_high := none, pending_low := none, pending_close := 0,
            pending_volume := 0, pending_ts := 0, count := 0 }
          (({ timestamp := 0, open_ := 10, high := 11, low := 9, close := 10,
              volume := 1, timeframe := "1m" } : IndicatorBar) ::
           [{ timestamp := 60000, open_ := 11, high := 12, low := 10, close := 11, volume := 1, timeframe := "1m" },
            { timestamp := 120000, open_ := 12, high := 13, low := 11, close := 12, volume := 1, timeframe := "1m" },
            { timestamp := 180000, open_ := 13, high := 14, low := 12, close := 13, volume := 1, timeframe := "1m" },
            { timestamp := 240000, open_ := 14, high := 15, low := 13, close := 14, volume := 1, timeframe := "1m" }])
        from rfl, h]
    norm_num [c5exResampler, max_def, min_def]

end QuantTrader
